import Mathlib

/-!
Shallow embedding of the spores.garden per-tenant NSID migration engine:
the namespace registry, the record payload rewriter, the paginated
collection listers, the migration orchestrator `migrateOwnerNsidRecords`
(src/config.ts), the legacy sections migration `migrateSections`
(src/config.ts), and the dual-namespace load resolver `loadUserConfig`
(src/config.ts).  Store effects are modelled by an explicit state-passing
monad over an abstract backend, with every issued store call recorded in a
trace of events.
-/

namespace Spores

/-- Namespace selector: the legacy (`garden.spores.*`) or the rolled-out
(`coop.hypha.spores.*`) collection naming scheme. -/
inductive Ns where
  | old
  | new
deriving DecidableEq, Repr

/-- Semantic collection keys, the closed set used by the migration
(`SPORE_COLLECTION_KEYS` in src/config/nsid.ts). -/
inductive CollectionKey where
  | siteConfig
  | siteLayout
  | siteSection
  | siteProfile
  | contentText
  | itemSpecialSpore
deriving DecidableEq, Repr

/-- Modelled from the spec: the Namespace Registry of src/config/nsid.ts
(file not present under src/); a pure, total mapping from a semantic
collection key and a namespace selector to a concrete collection
identifier.  The concrete identifier strings are the ones exercised by the
repository's own tests (garden.spores.* for old, coop.hypha.spores.* for
new). -/
def getCollection (key : CollectionKey) (ns : Ns) : String :=
  match key, ns with
  | .siteConfig, .old => "garden.spores.site.config"
  | .siteConfig, .new => "coop.hypha.spores.site.config"
  | .siteLayout, .old => "garden.spores.site.layout"
  | .siteLayout, .new => "coop.hypha.spores.site.layout"
  | .siteSection, .old => "garden.spores.site.section"
  | .siteSection, .new => "coop.hypha.spores.site.section"
  | .siteProfile, .old => "garden.spores.site.profile"
  | .siteProfile, .new => "coop.hypha.spores.site.profile"
  | .contentText, .old => "garden.spores.content.text"
  | .contentText, .new => "coop.hypha.spores.content.text"
  | .itemSpecialSpore, .old => "garden.spores.item.specialSpore"
  | .itemSpecialSpore, .new => "coop.hypha.spores.item.specialSpore"

/-- The ordered key list iterated by the orchestrator
(`SPORE_COLLECTION_KEYS`), in the order the repository's tests pass it. -/
def SPORE_COLLECTION_KEYS : List CollectionKey :=
  [.siteConfig, .siteLayout, .siteSection, .siteProfile, .contentText, .itemSpecialSpore]

/-- ASCII lowercasing of one character. -/
def lowerAsciiChar (c : Char) : Char :=
  if c.toNat ≥ 65 && c.toNat ≤ 90 then Char.ofNat (c.toNat + 32) else c

/-- ASCII lowercasing, character by character (the kernel-reducible
counterpart of `toLowerCase`). -/
def lowerAscii (s : String) : String :=
  ⟨s.data.map lowerAsciiChar⟩

/-- Modelled from the spec: the tolerant-truthy rollout-flag predicate of
src/config/nsid.ts (file not present under src/): a fixed set of
case-insensitive truthy tokens enables the migration, anything else
(including the empty/absent value) disables it. -/
def isTruthyFlag (raw : String) : Bool :=
  let t := lowerAscii raw
  t == "true" || t == "1" || t == "yes" || t == "on"

/-- Session/identity environment: the rollout flag's raw external string
value and the authenticated session (isLoggedIn / getCurrentDid). -/
structure Env where
  flagRaw : String
  loggedIn : Bool
  currentDid : Option String
deriving DecidableEq, Repr

/-- `isNsidMigrationEnabled()` of src/config/nsid.ts, modelled from the
spec over the environment's raw flag string. -/
def isNsidMigrationEnabled (env : Env) : Bool :=
  isTruthyFlag env.flagRaw

/-- `getWriteNamespace()`: `new` iff the rollout flag is enabled. -/
def getWriteNamespace (env : Env) : Ns :=
  if isNsidMigrationEnabled env then .new else .old

/-- `getReadNamespaces()`: `[new, old]` when enabled, else `[old]`. -/
def getReadNamespaces (env : Env) : List Ns :=
  if isNsidMigrationEnabled env then [.new, .old] else [.old]

/-- Modelled from the spec: the AT-URI codec of src/at-client.ts (file not
present under src/).  A record URI deterministically encodes
`(tenant, collectionId, recordKey)`; it is represented structurally, so
`buildAtUri` and `parseAtUri` are the constructor and the projections, and
`uri.split('/').pop()` is the `rkey` projection. -/
structure AtUri where
  did : String
  collection : String
  rkey : String
deriving DecidableEq, Repr

/-- One embedded section object of the legacy `garden.spores.site.sections`
record, restricted to the modelled subset of the fields the source copies
(`type` — the section kind — and `title`). -/
structure LegacySection where
  sectionKind : Option String := none
  title : Option String := none
deriving DecidableEq, Repr

/-- Modelled from the spec: a record's structured payload.  The engine
only interprets the well-known fields (`$type`, `nsidMigrationVersion`,
the cross-reference field `ref`, the config fields `title`/`subtitle`,
the layout's `sections` list of URIs, and the legacy sections record's
`sections` list of embedded section objects); all are optional, mirroring
untyped JSON. -/
structure Value where
  type : Option String := none
  nsidMigrationVersion : Option Int := none
  ref : Option AtUri := none
  title : Option String := none
  subtitle : Option String := none
  sectionUris : Option (List AtUri) := none
  legacySections : Option (List LegacySection) := none
deriving DecidableEq, Repr

/-- A stored record as returned by the store: its URI and its (possibly
missing) value. -/
structure Rec where
  uri : AtUri
  value : Option Value
deriving DecidableEq, Repr

/-- A `listRecords` page: records plus an optional continuation cursor. -/
structure ListResp where
  records : List Rec := []
  cursor : Option String := none
deriving DecidableEq, Repr

/-- The key the old-to-new identifier rewrite inverts: which semantic key
has the given string as its old-namespace collection identifier. -/
def keyOfOldCollection (coll : String) : Option CollectionKey :=
  SPORE_COLLECTION_KEYS.find? (fun k => getCollection k .old == coll)

/-- The key whose identifier in the given namespace equals the given
collection identifier string. -/
def keyOfCollection (coll : String) (ns : Ns) : Option CollectionKey :=
  SPORE_COLLECTION_KEYS.find? (fun k => getCollection k ns == coll)

/-- Modelled from the spec: rewriting one cross-reference URI toward a
target namespace (src/config/section-persistence.ts, file not present
under src/): only the collection-identifier segment is replaced, via the
registry, when it is a known old-namespace identifier; the tenant and
record-key segments are untouched; unrecognized identifiers pass through
unchanged. -/
def rewriteRefUri (u : AtUri) (target : Ns) : AtUri :=
  match keyOfOldCollection u.collection with
  | some k => { u with collection := getCollection k target }
  | none => u

/-- Modelled from the spec: `rewriteRecordPayloadForNamespace(collectionId,
value, targetNamespace)` of src/config/section-persistence.ts (file not
present under src/): a shallow copy of the value whose type tag is
replaced by the target-namespace identifier of the source collection's
semantic key, and whose recognized cross-reference field is rewritten by
`rewriteRefUri`; all other fields pass through unchanged. -/
def rewriteRecordPayloadForNamespace (collectionId : String) (v : Value) (target : Ns) : Value :=
  { v with
    type := match keyOfOldCollection collectionId with
      | some k => some (getCollection k target)
      | none => v.type
    ref := v.ref.map (fun u => rewriteRefUri u target) }

end Spores

namespace Spores

/-- One issued store call, as recorded in a run's trace; `ok` records
whether the backend satisfied the call or raised. -/
inductive Ev where
  | get (did coll rkey : String) (ok : Bool)
  | put (coll rkey : String) (v : Value) (ok : Bool)
  | list (did coll : String) (cursor : Option String) (ok : Bool)
  | del (coll rkey : String) (ok : Bool)
  | create (coll : String) (v : Value) (ok : Bool)
deriving DecidableEq, Repr

/-- Is the event a write call (put / delete / create)? -/
def Ev.isWrite : Ev → Bool
  | .put _ _ _ _ => true
  | .del _ _ _ => true
  | .create _ _ _ => true
  | _ => false

/-- Is the event a read call (get / list)? -/
def Ev.isRead : Ev → Bool
  | .get _ _ _ _ => true
  | .list _ _ _ _ => true
  | _ => false

/-- Is the event a failing getRecord or putRecord call? -/
def Ev.isFailedGetPut : Ev → Bool
  | .get _ _ _ ok => !ok
  | .put _ _ _ ok => !ok
  | _ => false

/-- Is the event a delete call? -/
def Ev.isDel : Ev → Bool
  | .del _ _ _ => true
  | _ => false

instance {α : Type} [DecidableEq α] : DecidableEq (Except Unit α) := fun a b =>
  match a, b with
  | .ok x, .ok y => if h : x = y then .isTrue (by simp [h]) else .isFalse (by simp [h])
  | .error _, .error _ => .isTrue (by rfl)
  | .ok _, .error _ => .isFalse (by simp)
  | .error _, .ok _ => .isFalse (by simp)

/-- The effect monad of the engine: explicit state passing over an
abstract store state `σ`, a trace of issued calls, and an `Except`-style
error channel that short-circuits like a thrown exception while keeping
the state and trace reached so far. -/
def M (σ : Type) (α : Type) := σ → List Ev → σ × List Ev × Except Unit α

/-- Return for `M`. -/
def M.pure (a : α) : M σ α := fun s t => (s, t, .ok a)

/-- Bind for `M`: sequencing that stops at the first error while keeping
state and trace. -/
def M.bind (x : M σ α) (f : α → M σ β) : M σ β := fun s t =>
  match x s t with
  | (s', t', .ok a) => f a s' t'
  | (s', t', .error e) => (s', t', .error e)

instance : Monad (M σ) where
  pure := M.pure
  bind := M.bind

/-- `try { x } catch { log }`: run `x`, swallow any error (the catch
blocks of the migration code only log). -/
def M.attempt (x : M σ α) : M σ Unit := fun s t =>
  match x s t with
  | (s', t', _) => (s', t', .ok ())

/-- `x.catch(() => null)`: map an error to `none` and success to `some`. -/
def M.catchNull (x : M σ α) : M σ (Option α) := fun s t =>
  match x s t with
  | (s', t', .ok a) => (s', t', .ok (some a))
  | (s', t', .error _) => (s', t', .ok none)

/-- An abstract remote store backend: each operation transforms the store
state and either succeeds with a result or raises.  Writes carry no
tenant parameter: they are scoped to the authenticated session by
construction (src/oauth.ts). -/
structure Backend (σ : Type) where
  get : σ → String → String → String → σ × Except Unit (Option Rec)
  put : σ → String → String → Value → σ × Except Unit Unit
  list : σ → String → String → Option String → σ × Except Unit ListResp
  del : σ → String → String → σ × Except Unit Unit
  create : σ → String → Value → σ × Except Unit AtUri

/-- Issue a getRecord call, recording it in the trace. -/
def opGet (B : Backend σ) (did coll rkey : String) : M σ (Option Rec) := fun s t =>
  match B.get s did coll rkey with
  | (s', .ok r) => (s', t ++ [.get did coll rkey true], .ok r)
  | (s', .error e) => (s', t ++ [.get did coll rkey false], .error e)

/-- Issue a putRecord call, recording it in the trace. -/
def opPut (B : Backend σ) (coll rkey : String) (v : Value) : M σ Unit := fun s t =>
  match B.put s coll rkey v with
  | (s', .ok r) => (s', t ++ [.put coll rkey v true], .ok r)
  | (s', .error e) => (s', t ++ [.put coll rkey v false], .error e)

/-- Issue a listRecords call, recording it in the trace. -/
def opList (B : Backend σ) (did coll : String) (cursor : Option String) : M σ ListResp := fun s t =>
  match B.list s did coll cursor with
  | (s', .ok r) => (s', t ++ [.list did coll cursor true], .ok r)
  | (s', .error e) => (s', t ++ [.list did coll cursor false], .error e)

/-- Issue a deleteRecord call, recording it in the trace. -/
def opDel (B : Backend σ) (coll rkey : String) : M σ Unit := fun s t =>
  match B.del s coll rkey with
  | (s', .ok r) => (s', t ++ [.del coll rkey true], .ok r)
  | (s', .error e) => (s', t ++ [.del coll rkey false], .error e)

/-- Issue a createRecord call, recording it in the trace. -/
def opCreate (B : Backend σ) (coll : String) (v : Value) : M σ AtUri := fun s t =>
  match B.create s coll v with
  | (s', .ok r) => (s', t ++ [.create coll v true], .ok r)
  | (s', .error e) => (s', t ++ [.create coll v false], .error e)

/-- JavaScript falsiness of an optional cursor: absent or the empty
string. -/
def falsyCursor : Option String → Bool
  | none => true
  | some c => c == ""

/-- The fixed singleton record key (`CONFIG_RKEY` in src/config.ts). -/
def CONFIG_RKEY : String := "self"

/-- The marker version (`NSID_MIGRATION_VERSION` of src/config/nsid.ts,
file not present under src/; modelled from the spec with the concrete
value the repository's tests pass). -/
def NSID_MIGRATION_VERSION : Int := 1

end Spores

namespace Spores

/-- One entry of the concrete per-tenant record store: the owning tenant,
collection identifier, record key and stored value (the shape of the
in-memory store the repository's own migration test builds). -/
structure Entry where
  did : String
  coll : String
  rkey : String
  value : Value
deriving DecidableEq, Repr

/-- The concrete remote store state: a finite set of records represented
as a list of entries, later entries having been written later. -/
abbrev Store := List Entry

/-- The empty store. -/
def Store.empty : Store := []

/-- Does the entry address the given (tenant, collection, record key)? -/
def Entry.matches (e : Entry) (did coll rkey : String) : Bool :=
  e.did == did && e.coll == coll && e.rkey == rkey

/-- Look up the value stored at (tenant, collection, record key). -/
def Store.lookup (s : Store) (did coll rkey : String) : Option Value :=
  (s.find? (fun e => e.matches did coll rkey)).map Entry.value

/-- Full-value overwrite at (tenant, collection, record key): the only
mutation primitive (no partial update). -/
def Store.insertRec (s : Store) (did coll rkey : String) (v : Value) : Store :=
  s.filter (fun e => !(e.matches did coll rkey)) ++ [⟨did, coll, rkey, v⟩]

/-- Remove the record at (tenant, collection, record key). -/
def Store.eraseRec (s : Store) (did coll rkey : String) : Store :=
  s.filter (fun e => !(e.matches did coll rkey))

/-- All records of one collection for one tenant, as `listRecords`
returns them. -/
def Store.listColl (s : Store) (did coll : String) : List Rec :=
  (s.filter (fun e => e.did == did && e.coll == coll)).map
    (fun e => { uri := ⟨e.did, e.coll, e.rkey⟩, value := some e.value })

/-- Static failure injection: which store calls raise.  A call that
raises leaves the store unchanged. -/
structure Faults where
  onGet : String → String → Bool := fun _ _ => false
  onPut : String → String → Bool := fun _ _ => false
  onList : String → Bool := fun _ => false
  onDel : String → String → Bool := fun _ _ => false
  onCreate : String → Bool := fun _ => false

/-- No injected failures. -/
def noFaults : Faults := {}

/-- The store backend over the concrete `Store` with failure injection:
reads and lists serve the current store contents (a list returns all
records in a single page with no cursor, as the repository's test store
does); writes are scoped to the authenticated session `sessionDid` (the
real putRecord accepts no tenant parameter); created records get a fresh
store-generated key. -/
def faultyBackend (sessionDid : String) (F : Faults) : Backend Store where
  get s did coll rkey :=
    if F.onGet coll rkey then (s, .error ())
    else (s, .ok ((s.find? (fun e => e.matches did coll rkey)).map
      (fun e => { uri := ⟨e.did, e.coll, e.rkey⟩, value := some e.value })))
  put s coll rkey v :=
    if F.onPut coll rkey then (s, .error ())
    else (s.insertRec sessionDid coll rkey v, .ok ())
  list s did coll _cursor :=
    if F.onList coll then (s, .error ())
    else (s, .ok { records := s.listColl did coll, cursor := none })
  del s coll rkey :=
    if F.onDel coll rkey then (s, .error ())
    else (s.eraseRec sessionDid coll rkey, .ok ())
  create s coll v :=
    if F.onCreate coll then (s, .error ())
    else
      let rkey := "gen" ++ toString s.length
      (s.insertRec sessionDid coll rkey v, .ok ⟨sessionDid, coll, rkey⟩)

/-- The fault-free concrete backend. -/
def honestBackend (sessionDid : String) : Backend Store :=
  faultyBackend sessionDid noFaults

/-- The pagination loop of `listAllRecordsForCollection` in src/config.ts:
at most 50 iterations, one list call per iteration with the current
cursor; a call that raises is mapped to null (`.catch(() => null)`) and
ends the loop; an empty (or missing) records page ends the loop before
accumulating; a falsy cursor ends the loop after accumulating. -/
def listAllGo (B : Backend σ) (did coll : String) :
    Nat → Option String → List Rec → M σ (List Rec)
  | 0, _, acc => M.pure acc
  | Nat.succ fuel, cursor, acc =>
    M.bind (M.catchNull (opList B did coll cursor)) (fun response =>
      match response with
      | none => M.pure acc
      | some r =>
        if r.records.isEmpty then M.pure acc
        else
          match r.cursor with
          | none => M.pure (acc ++ r.records)
          | some c =>
            if c == "" then M.pure (acc ++ r.records)
            else listAllGo B did coll fuel (some c) (acc ++ r.records))

/-- `listAllRecordsForCollection` of src/config.ts (lines 211-224): the
lister the live orchestrator uses, with its 50-page ceiling and no
repeated-cursor detection. -/
def listAllRecordsForCollection (B : Backend σ) (did coll : String) : M σ (List Rec) :=
  listAllGo B did coll 50 none []

/-- The hard page ceiling of the nsid-migration.ts lister
(`MAX_LIST_PAGES`). -/
def MAX_LIST_PAGES : Nat := 200

/-- The pagination loop of `listAllRecordsForCollection` in
src/config/nsid-migration.ts: a page-count ceiling of 200, records
accumulated even from empty pages, list errors propagated, and the loop
stopped early when the returned cursor is falsy, equals the previous
cursor, or was already seen. -/
def listAllImplGo (B : Backend σ) (did coll : String) :
    Nat → Option String → List String → List Rec → M σ (List Rec)
  | 0, _, _, acc => M.pure acc
  | Nat.succ fuel, cursor, seen, acc =>
    M.bind (opList B did coll cursor) (fun response =>
      let acc' := acc ++ response.records
      match response.cursor with
      | none => M.pure acc'
      | some next =>
        if next == "" then M.pure acc'
        else if cursor == some next || seen.contains next then M.pure acc'
        else listAllImplGo B did coll fuel (some next) (next :: seen) acc')

/-- `listAllRecordsForCollection` of src/config/nsid-migration.ts (lines
18-47), with its cursor-loop detection. -/
def listAllRecordsForCollectionImpl (B : Backend σ) (did coll : String) : M σ (List Rec) :=
  listAllImplGo B did coll MAX_LIST_PAGES none [] []

end Spores

namespace Spores

/-- Is the key handled by the singleton strategy in the orchestrator
(`key === 'siteConfig' || key === 'siteLayout' || key === 'siteProfile'`)? -/
def isSingletonKey (key : CollectionKey) : Bool :=
  key == .siteConfig || key == .siteLayout || key == .siteProfile

/-- The marker fast-path test of src/config.ts line 235:
`existingNewConfig?.value?.nsidMigrationVersion >= NSID_MIGRATION_VERSION`
(an absent record, value or field compares as not-≥, as in JS). -/
def markerAtLeastCurrent (r : Option Rec) : Bool :=
  match (r.bind Rec.value).bind Value.nsidMigrationVersion with
  | some m => NSID_MIGRATION_VERSION ≤ m
  | none => false

/-- Attach the new-namespace type tag to a rewritten payload
(`{ ...rewritten, $type: newCollection }`). -/
def withTypeTag (v : Value) (coll : String) : Value :=
  { v with type := some coll }

/-- The inner loop of the list strategy in src/config.ts lines 255-263:
for each listed old record, derive its key from its URI, skip records
with a falsy key or no value, rewrite the payload and overwrite the
new-namespace record at the same key. -/
def migrateListRecords (B : Backend σ) (newColl oldColl : String) : List Rec → M σ Unit
  | [] => M.pure ()
  | r :: rest =>
    if r.uri.rkey == "" then migrateListRecords B newColl oldColl rest
    else
      match r.value with
      | none => migrateListRecords B newColl oldColl rest
      | some v =>
        M.bind
          (opPut B newColl r.uri.rkey
            (withTypeTag (rewriteRecordPayloadForNamespace oldColl v .new) newColl))
          (fun _ => migrateListRecords B newColl oldColl rest)

/-- One iteration of the copy loop of src/config.ts lines 239-264: the
singleton strategy (fetch old at the fixed key, skip if absent, rewrite
and overwrite new at the fixed key) or the list strategy (list all old
records and copy each). -/
def migrateKey (B : Backend σ) (did : String) (key : CollectionKey) : M σ Unit :=
  let oldColl := getCollection key .old
  let newColl := getCollection key .new
  if isSingletonKey key then
    M.bind (opGet B did oldColl CONFIG_RKEY) (fun oldRecord =>
      match oldRecord.bind Rec.value with
      | none => M.pure ()
      | some v =>
        opPut B newColl CONFIG_RKEY
          (withTypeTag (rewriteRecordPayloadForNamespace oldColl v .new) newColl))
  else
    M.bind (listAllRecordsForCollection B did oldColl) (fun oldRecords =>
      migrateListRecords B newColl oldColl oldRecords)

/-- The copy loop over all semantic collection keys. -/
def migrateKeys (B : Backend σ) (did : String) : List CollectionKey → M σ Unit
  | [] => M.pure ()
  | k :: ks => M.bind (migrateKey B did k) (fun _ => migrateKeys B did ks)

/-- The fallback configuration of the finalize step
(`{ title: 'My Garden', subtitle: '' }`, src/config.ts lines 268-271). -/
def defaultBaseConfig : Value :=
  { title := some "My Garden", subtitle := some "" }

/-- The guarded body of the orchestrator (src/config.ts lines 233-277,
the region inside `try`): marker fast path, copy loop, and the finalize
write that commits the migration marker. -/
def migrateBody (B : Backend σ) (did : String) : M σ Unit :=
  M.bind (opGet B did (getCollection .siteConfig .new) CONFIG_RKEY) (fun existingNewConfig =>
    if markerAtLeastCurrent existingNewConfig then M.pure ()
    else
      M.bind (migrateKeys B did SPORE_COLLECTION_KEYS) (fun _ =>
        M.bind (opGet B did (getCollection .siteConfig .new) CONFIG_RKEY) (fun latestNewConfig =>
          M.bind (opGet B did (getCollection .siteConfig .old) CONFIG_RKEY) (fun oldConfig =>
            let baseConfig :=
              ((latestNewConfig.bind Rec.value) <|> (oldConfig.bind Rec.value)).getD
                defaultBaseConfig
            opPut B (getCollection .siteConfig .new) CONFIG_RKEY
              { baseConfig with
                type := some (getCollection .siteConfig .new),
                nsidMigrationVersion := some NSID_MIGRATION_VERSION }))))

/-- `migrateOwnerNsidRecords` of src/config.ts (lines 226-282): the
rollout-flag gate, the authorization gate, and the guarded body whose
errors are caught and only logged. -/
def migrateOwnerNsidRecords (B : Backend σ) (env : Env) (did : String) : M σ Unit :=
  if !isNsidMigrationEnabled env then M.pure ()
  else if !(env.loggedIn && env.currentDid == some did) then M.pure ()
  else M.attempt (migrateBody B did)

end Spores

namespace Spores

/-- The pre-namespace legacy sections collection deleted by
`migrateSections` (src/config.ts line 290). -/
def OLD_SECTIONS_COLLECTION : String := "garden.spores.site.sections"

/-- Build the per-section record `migrateSections` writes (src/config.ts
lines 301-313), restricted to the modelled field subset: the
write-namespace type tag and the copied `title`. -/
def buildLegacySectionRecord (sectionColl : String) (s : LegacySection) : Value :=
  { type := some sectionColl, title := s.title }

/-- The per-section create loop of `migrateSections` (src/config.ts lines
300-317), collecting the created record URIs in order. -/
def createLegacySections (B : Backend σ) (sectionColl : String) :
    List LegacySection → M σ (List AtUri)
  | [] => M.pure []
  | s :: rest =>
    M.bind (opCreate B sectionColl (buildLegacySectionRecord sectionColl s)) (fun uri =>
      M.bind (createLegacySections B sectionColl rest) (fun uris =>
        M.pure (uri :: uris)))

/-- `migrateSections` of src/config.ts (lines 284-335): guarded by the
same owner check; reads the legacy `garden.spores.site.sections` record
and, when it carries a sections array, creates one section record per
entry in the write-namespace section collection, overwrites the
write-namespace layout record with their URIs, and deletes the legacy
record; every error is caught and only logged. -/
def migrateSections (B : Backend σ) (env : Env) (did : String) : M σ Unit :=
  if !(env.loggedIn && env.currentDid == some did) then M.pure ()
  else
    M.attempt
      (M.bind (opGet B did OLD_SECTIONS_COLLECTION CONFIG_RKEY) (fun oldSectionsRecord =>
        match (oldSectionsRecord.bind Rec.value).bind Value.legacySections with
        | none => M.pure ()
        | some sections =>
          let sectionColl := getCollection .siteSection (getWriteNamespace env)
          let layoutColl := getCollection .siteLayout (getWriteNamespace env)
          M.bind (createLegacySections B sectionColl sections) (fun uris =>
            M.bind
              (opPut B layoutColl CONFIG_RKEY
                { type := some layoutColl, sectionUris := some uris })
              (fun _ => opDel B OLD_SECTIONS_COLLECTION CONFIG_RKEY))))

/-- The namespace scan of `loadUserConfig` (src/config.ts lines 357-368):
for each read namespace in order, read the singleton config and layout
records and stop at the first namespace where either is present. -/
def scanNamespaces (B : Backend σ) (did : String) :
    List Ns → M σ (Option (Ns × Option Rec × Option Rec))
  | [] => M.pure none
  | ns :: rest =>
    M.bind (opGet B did (getCollection .siteConfig ns) CONFIG_RKEY) (fun candidateConfig =>
      M.bind (opGet B did (getCollection .siteLayout ns) CONFIG_RKEY) (fun candidateLayout =>
        if candidateConfig.isSome || candidateLayout.isSome then
          M.pure (some (ns, candidateConfig, candidateLayout))
        else scanNamespaces B did rest))

/-- The section-record fetch loop of `loadUserConfig` (src/config.ts
lines 419-435): one getRecord per layout section URI. -/
def fetchSectionRecords (B : Backend σ) : List AtUri → M σ (List (Option Rec))
  | [] => M.pure []
  | u :: rest =>
    M.bind (opGet B u.did u.collection u.rkey) (fun r =>
      M.bind (fetchSectionRecords B rest) (fun rs => M.pure (r :: rs)))

/-- The configuration value `loadUserConfig` resolves for the caller,
restricted to the modelled fields (title/subtitle of the active config
record); the theme, font and section-payload assembly of src/config.ts is
presentation logic outside this core. -/
structure LoadedConfig where
  title : Option String
  subtitle : Option String
deriving DecidableEq, Repr

/-- The tail of `loadUserConfig` after a config value is available
(src/config.ts lines 396-488): when the layout record carries a non-empty
sections array, fetch each section record (reads only); otherwise the
initial sections are generated purely; then the in-memory configuration
is assembled without further store calls. -/
def finishLoad (B : Backend σ) (configValue : Value) (layoutRecord : Option Rec) :
    M σ (Option LoadedConfig) :=
  let result : Option LoadedConfig :=
    some { title := configValue.title, subtitle := configValue.subtitle }
  match (layoutRecord.bind Rec.value).bind Value.sectionUris with
  | some uris =>
    if uris.isEmpty then M.pure result
    else M.bind (fetchSectionRecords B uris) (fun _ => M.pure result)
  | none => M.pure result

/-- The continuation of `loadUserConfig` after the namespace scan
(src/config.ts lines 376-394): with a config record, proceed; with only a
layout record, write a default config record first; with neither, resolve
to the null result. -/
def resolveScanOutcome (B : Backend σ) (found : Option (Ns × Option Rec × Option Rec)) :
    M σ (Option LoadedConfig) :=
  match found with
  | none => M.pure none
  | some (ns, configRecord, layoutRecord) =>
    match configRecord with
    | some cr => finishLoad B (cr.value.getD {}) layoutRecord
    | none =>
      match layoutRecord with
      | none => M.pure none
      | some lr =>
        let defaultConfigToSave : Value :=
          { type := some (getCollection .siteConfig ns),
            title := some "My Garden", subtitle := some "" }
        M.bind (opPut B (getCollection .siteConfig ns) CONFIG_RKEY defaultConfigToSave)
          (fun _ => finishLoad B defaultConfigToSave (some lr))

/-- The guarded body of `loadUserConfig` (src/config.ts lines 349-488):
legacy sections migration, the namespace scan, creation of a default
config record when a layout exists without a config record, and section
fetching. -/
def loadUserConfigBody (B : Backend σ) (env : Env) (did : String) : M σ (Option LoadedConfig) :=
  M.bind (migrateSections B env did) (fun _ =>
    M.bind (scanNamespaces B did (getReadNamespaces env)) (resolveScanOutcome B))

/-- `loadUserConfig` of src/config.ts (lines 340-494): null without a
tenant id; otherwise the guarded body, any error caught and mapped to the
null result. -/
def loadUserConfig (B : Backend σ) (env : Env) (did : Option String) : M σ (Option LoadedConfig) :=
  match did with
  | none => M.pure none
  | some d => fun s t =>
    match loadUserConfigBody B env d s t with
    | (s', t', .ok a) => (s', t', .ok a)
    | (s', t', .error _) => (s', t', .ok none)

/-- The site-load migration path of `initConfig` (src/config.ts lines
164-166): the NSID owner migration followed by the dual-namespace load. -/
def siteLoad (B : Backend σ) (env : Env) (did : String) : M σ (Option LoadedConfig) :=
  M.bind (migrateOwnerNsidRecords B env did) (fun _ => loadUserConfig B env (some did))

end Spores

namespace Spores

/-- Read a full record (uri and value) from the concrete store, as the
backend's getRecord serves it. -/
def Store.getRec (s : Store) (did coll rkey : String) : Option Rec :=
  (s.find? (fun e => e.matches did coll rkey)).map
    (fun e => { uri := ⟨e.did, e.coll, e.rkey⟩, value := some e.value })

/-- Is the collection identifier one of the old-namespace identifiers? -/
def isOldCollection (c : String) : Bool :=
  (keyOfCollection c .old).isSome

/-- The collection a delete event targets, if the event is a delete. -/
def Ev.delTarget : Ev → Option String
  | .del c _ _ => some c
  | _ => none

/-- Every record value in the store has no migration-marker field (the
shape of a store holding only pre-migration data). -/
def markersNone (s : Store) : Prop :=
  ∀ e ∈ s, e.value.nsidMigrationVersion = none

/-- A record whose value, when present, has no marker field. -/
def recMarkerNone (r : Rec) : Prop :=
  ∀ v, r.value = some v → v.nsidMigrationVersion = none

theorem find?_of_filter_append (s : List Entry) (p q : Entry → Bool) (e : Entry)
    (hq : ∀ x, q x = true → p x = true) (he : q e = true) :
    ((s.filter p) ++ [e]).find? q = (s.find? q).orElse (fun _ => some e) := by
  induction s with
  | nil => simp [List.find?, he]
  | cons a s ih =>
    by_cases hqa : q a = true
    · have hpa := hq a hqa
      simp [List.filter_cons, hpa, List.find?, hqa]
    · have hqa' : q a = false := by
        cases h : q a
        · rfl
        · exact absurd h hqa
      by_cases hpa : p a = true
      · simp [List.filter_cons, hpa, List.find?, hqa', ih]
      · have hpa' : p a = false := by
          cases h : p a
          · rfl
          · exact absurd h hpa
        simp [List.filter_cons, hpa', List.find?, hqa', ih]

end Spores

namespace Spores

theorem find?_filter_append_none (s : List Entry) (p q : Entry → Bool) (e : Entry)
    (hq : ∀ x, q x = true → p x = true) (he : q e = false) :
    ((s.filter p) ++ [e]).find? q = s.find? q := by
  induction s with
  | nil => simp [List.find?, he]
  | cons a s ih =>
    by_cases hqa : q a = true
    · have hpa := hq a hqa
      simp [List.filter_cons, hpa, List.find?, hqa]
    · have hqa' : q a = false := by
        cases h : q a
        · rfl
        · exact absurd h hqa
      by_cases hpa : p a = true
      · simp [List.filter_cons, hpa, List.find?, hqa', ih]
      · have hpa' : p a = false := by
          cases h : p a
          · rfl
          · exact absurd h hpa
        simp [List.filter_cons, hpa', List.find?, hqa', ih]

theorem find?_filter_not_append (s : List Entry) (q : Entry → Bool) (e : Entry)
    (he : q e = true) :
    ((s.filter (fun x => !(q x))) ++ [e]).find? q = some e := by
  induction s with
  | nil => simp [List.find?, he]
  | cons a s ih =>
    by_cases hqa : q a = true
    · simp [List.filter_cons, hqa, ih]
    · have hqa' : q a = false := by
        cases h : q a
        · rfl
        · exact absurd h hqa
      simp [List.filter_cons, hqa', List.find?, ih]

theorem find?_filter_none (s : List Entry) (p q : Entry → Bool)
    (hq : ∀ x, q x = true → p x = true) :
    (s.filter p).find? q = s.find? q := by
  induction s with
  | nil => simp
  | cons a s ih =>
    by_cases hqa : q a = true
    · have hpa := hq a hqa
      simp [List.filter_cons, hpa, List.find?, hqa]
    · have hqa' : q a = false := by
        cases h : q a
        · rfl
        · exact absurd h hqa
      by_cases hpa : p a = true
      · simp [List.filter_cons, hpa, List.find?, hqa', ih]
      · have hpa' : p a = false := by
          cases h : p a
          · rfl
          · exact absurd h hpa
        simp [List.filter_cons, hpa', List.find?, hqa', ih]

theorem matches_self (d c k : String) (v : Value) :
    Entry.matches ⟨d, c, k, v⟩ d c k = true := by
  simp [Entry.matches]

theorem matches_true_iff (e : Entry) (d c k : String) :
    e.matches d c k = true ↔ (e.did = d ∧ e.coll = c ∧ e.rkey = k) := by
  simp [Entry.matches, and_assoc]

theorem getRec_insertRec_self (s : Store) (d c k : String) (v : Value) :
    (s.insertRec d c k v).getRec d c k = some { uri := ⟨d, c, k⟩, value := some v } := by
  unfold Store.insertRec Store.getRec
  rw [find?_filter_not_append]
  · rfl
  · exact matches_self d c k v

theorem getRec_insertRec_ne (s : Store) (d c k : String) (v : Value) (d' c' k' : String)
    (h : ¬(d' = d ∧ c' = c ∧ k' = k)) :
    (s.insertRec d c k v).getRec d' c' k' = s.getRec d' c' k' := by
  unfold Store.insertRec Store.getRec
  rw [find?_filter_append_none]
  · intro x hx
    rw [matches_true_iff] at hx
    have : x.matches d c k = false := by
      cases hm : x.matches d c k
      · rfl
      · rw [matches_true_iff] at hm
        exact absurd ⟨hx.1.symm.trans hm.1, hx.2.1.symm.trans hm.2.1,
          hx.2.2.symm.trans hm.2.2⟩ h
    simp [this]
  · cases hm : Entry.matches ⟨d, c, k, v⟩ d' c' k'
    · rfl
    · rw [matches_true_iff] at hm
      exact absurd ⟨hm.1.symm, hm.2.1.symm, hm.2.2.symm⟩ h

theorem getRec_eraseRec_ne (s : Store) (d c k : String) (d' c' k' : String)
    (h : ¬(d' = d ∧ c' = c ∧ k' = k)) :
    (s.eraseRec d c k).getRec d' c' k' = s.getRec d' c' k' := by
  unfold Store.eraseRec Store.getRec
  rw [find?_filter_none]
  intro x hx
  rw [matches_true_iff] at hx
  have : x.matches d c k = false := by
    cases hm : x.matches d c k
    · rfl
    · rw [matches_true_iff] at hm
      exact absurd ⟨hx.1.symm.trans hm.1, hx.2.1.symm.trans hm.2.1,
        hx.2.2.symm.trans hm.2.2⟩ h
  simp [this]

theorem lookup_eq_getRec_value (s : Store) (d c k : String) :
    s.lookup d c k = (s.getRec d c k).bind Rec.value := by
  unfold Store.lookup Store.getRec
  cases s.find? (fun e => e.matches d c k) <;> rfl

end Spores

namespace Spores

theorem opGet_faulty (sid : String) (F : Faults) (d c k : String) (s : Store) (t : List Ev) :
    opGet (faultyBackend sid F) d c k s t =
      if F.onGet c k then (s, t ++ [.get d c k false], .error ())
      else (s, t ++ [.get d c k true], .ok (s.getRec d c k)) := by
  unfold opGet faultyBackend Store.getRec
  by_cases h : F.onGet c k <;> simp [h]

theorem opPut_faulty (sid : String) (F : Faults) (c k : String) (v : Value) (s : Store)
    (t : List Ev) :
    opPut (faultyBackend sid F) c k v s t =
      if F.onPut c k then (s, t ++ [.put c k v false], .error ())
      else (s.insertRec sid c k v, t ++ [.put c k v true], .ok ()) := by
  unfold opPut faultyBackend
  by_cases h : F.onPut c k <;> simp [h]

theorem opList_faulty (sid : String) (F : Faults) (d c : String) (cur : Option String)
    (s : Store) (t : List Ev) :
    opList (faultyBackend sid F) d c cur s t =
      if F.onList c then (s, t ++ [.list d c cur false], .error ())
      else (s, t ++ [.list d c cur true], .ok { records := s.listColl d c, cursor := none }) := by
  unfold opList faultyBackend
  by_cases h : F.onList c <;> simp [h]

theorem opDel_faulty (sid : String) (F : Faults) (c k : String) (s : Store) (t : List Ev) :
    opDel (faultyBackend sid F) c k s t =
      if F.onDel c k then (s, t ++ [.del c k false], .error ())
      else (s.eraseRec sid c k, t ++ [.del c k true], .ok ()) := by
  unfold opDel faultyBackend
  by_cases h : F.onDel c k <;> simp [h]

theorem opCreate_faulty (sid : String) (F : Faults) (c : String) (v : Value) (s : Store)
    (t : List Ev) :
    opCreate (faultyBackend sid F) c v s t =
      if F.onCreate c then (s, t ++ [.create c v false], .error ())
      else (s.insertRec sid c ("gen" ++ toString s.length) v,
        t ++ [.create c v true], .ok ⟨sid, c, "gen" ++ toString s.length⟩) := by
  unfold opCreate faultyBackend
  by_cases h : F.onCreate c <;> simp [h]

theorem markersNone_insertRec (s : Store) (d c k : String) (v : Value)
    (hs : markersNone s) (hv : v.nsidMigrationVersion = none) :
    markersNone (s.insertRec d c k v) := by
  intro e he
  unfold Store.insertRec at he
  rcases List.mem_append.mp he with h | h
  · exact hs e (List.mem_of_mem_filter h)
  · simp at h
    rw [h]
    exact hv

theorem markersNone_eraseRec (s : Store) (d c k : String) (hs : markersNone s) :
    markersNone (s.eraseRec d c k) := by
  intro e he
  exact hs e (List.mem_of_mem_filter he)

theorem getRec_markerNone (s : Store) (d c k : String) (hs : markersNone s) :
    ∀ r, s.getRec d c k = some r → recMarkerNone r := by
  intro r hr v hv
  unfold Store.getRec at hr
  cases hfind : s.find? (fun e => e.matches d c k) with
  | none => rw [hfind] at hr; exact absurd hr (by simp)
  | some e =>
    rw [hfind] at hr
    simp at hr
    have he : e ∈ s := List.mem_of_find?_eq_some hfind
    rw [← hr] at hv
    simp at hv
    rw [← hv]
    exact hs e he

theorem listColl_markerNone (s : Store) (d c : String) (hs : markersNone s) :
    ∀ r ∈ s.listColl d c, recMarkerNone r := by
  intro r hr v hv
  unfold Store.listColl at hr
  rcases List.mem_map.mp hr with ⟨e, he, hre⟩
  have hes : e ∈ s := List.mem_of_mem_filter he
  rw [← hre] at hv
  simp at hv
  rw [← hv]
  exact hs e hes

theorem rewrite_preserves_marker (c : String) (v : Value) (ns : Ns) (nc : String) :
    (withTypeTag (rewriteRecordPayloadForNamespace c v ns) nc).nsidMigrationVersion =
      v.nsidMigrationVersion := by
  rfl

end Spores

namespace Spores

theorem listAllGo_faulty (sid : String) (F : Faults) (d c : String) (fuel : Nat)
    (cur : Option String) (acc : List Rec) (s : Store) (t : List Ev) :
    ∃ Δ recs, listAllGo (faultyBackend sid F) d c fuel cur acc s t = (s, t ++ Δ, .ok recs) ∧
      (∀ e ∈ Δ, e.isFailedGetPut = false ∧ e.isDel = false) ∧
      (markersNone s → (∀ r ∈ acc, recMarkerNone r) → ∀ r ∈ recs, recMarkerNone r) := by
  cases fuel with
  | zero =>
    exact ⟨[], acc, by simp [listAllGo, M.pure], by simp, fun _ h => h⟩
  | succ n =>
    by_cases hF : F.onList c = true
    · refine ⟨[.list d c cur false], acc, ?_, ?_, fun _ h => h⟩
      · simp [listAllGo, M.bind, M.catchNull, opList_faulty, hF, M.pure]
      · intro e he
        simp at he
        rw [he]
        exact ⟨rfl, rfl⟩
    · have hF' : F.onList c = false := by
        cases h : F.onList c
        · rfl
        · exact absurd h hF
      by_cases hE : (s.listColl d c).isEmpty = true
      · refine ⟨[.list d c cur true], acc, ?_, ?_, fun _ h => h⟩
        · simp [listAllGo, M.bind, M.catchNull, opList_faulty, hF', hE, M.pure]
        · intro e he
          simp at he
          rw [he]
          exact ⟨rfl, rfl⟩
      · have hE' : (s.listColl d c).isEmpty = false := by
          cases h : (s.listColl d c).isEmpty
          · rfl
          · exact absurd h hE
        refine ⟨[.list d c cur true], acc ++ s.listColl d c, ?_, ?_, ?_⟩
        · simp [listAllGo, M.bind, M.catchNull, opList_faulty, hF', hE', M.pure]
        · intro e he
          simp at he
          rw [he]
          exact ⟨rfl, rfl⟩
        · intro hs hacc r hr
          rcases List.mem_append.mp hr with h | h
          · exact hacc r h
          · exact listColl_markerNone s d c hs r h

end Spores

namespace Spores

theorem getRec_insertRec_notOld (s : Store) (sid c k : String) (v : Value)
    (hc : isOldCollection c = false) (d' c' k' : String) (hold : isOldCollection c' = true) :
    (s.insertRec sid c k v).getRec d' c' k' = s.getRec d' c' k' := by
  apply getRec_insertRec_ne
  rintro ⟨-, h2, -⟩
  rw [h2] at hold
  rw [hold] at hc
  exact Bool.noConfusion hc

theorem migrateListRecords_faulty (sid : String) (F : Faults) (nc oc : String)
    (recs : List Rec) : ∀ (s : Store) (t : List Ev),
    ∃ Δ s' r, migrateListRecords (faultyBackend sid F) nc oc recs s t = (s', t ++ Δ, r) ∧
      (∀ e ∈ Δ, e.isDel = false) ∧
      (r = .ok () → ∀ e ∈ Δ, e.isFailedGetPut = false) ∧
      (isOldCollection nc = false →
        ∀ d' c' k', isOldCollection c' = true → s'.getRec d' c' k' = s.getRec d' c' k') ∧
      (markersNone s → (∀ x ∈ recs, recMarkerNone x) → markersNone s') := by
  induction recs with
  | nil =>
    intro s t
    exact ⟨[], s, .ok (), by simp [migrateListRecords, M.pure], by simp, by simp,
      fun _ _ _ _ _ => rfl, fun h _ => h⟩
  | cons x xs ih =>
    intro s t
    by_cases hk : (x.uri.rkey == "") = true
    · rcases ih s t with ⟨Δ, s', r, heq, hdel, hfail, hpres, hmark⟩
      refine ⟨Δ, s', r, ?_, hdel, hfail, hpres, ?_⟩
      · simp only [migrateListRecords, hk]
        exact heq
      · intro hs hx
        exact hmark hs (fun y hy => hx y (List.mem_cons_of_mem x hy))
    · have hk' : (x.uri.rkey == "") = false := by
        cases h : (x.uri.rkey == "")
        · rfl
        · exact absurd h hk
      cases hxv : x.value with
      | none =>
        rcases ih s t with ⟨Δ, s', r, heq, hdel, hfail, hpres, hmark⟩
        refine ⟨Δ, s', r, ?_, hdel, hfail, hpres, ?_⟩
        · simp only [migrateListRecords, hk', Bool.false_eq_true, if_false, hxv]
          exact heq
        · intro hs hx
          exact hmark hs (fun y hy => hx y (List.mem_cons_of_mem x hy))
      | some v =>
        by_cases hP : F.onPut nc x.uri.rkey = true
        · refine ⟨[.put nc x.uri.rkey
            (withTypeTag (rewriteRecordPayloadForNamespace oc v .new) nc) false], s,
            .error (), ?_, ?_, ?_, fun _ _ _ _ _ => rfl, fun h _ => h⟩
          · simp only [migrateListRecords, hk', Bool.false_eq_true, if_false, hxv]
            simp [M.bind, opPut_faulty, hP]
          · intro e he
            simp at he
            rw [he]
            rfl
          · intro h
            exact absurd h (by simp)
        · have hP' : F.onPut nc x.uri.rkey = false := by
            cases h : F.onPut nc x.uri.rkey
            · rfl
            · exact absurd h hP
          set val := withTypeTag (rewriteRecordPayloadForNamespace oc v .new) nc with hval
          rcases ih (s.insertRec sid nc x.uri.rkey val)
            (t ++ [.put nc x.uri.rkey val true]) with ⟨Δ, s', r, heq, hdel, hfail, hpres, hmark⟩
          refine ⟨[.put nc x.uri.rkey val true] ++ Δ, s', r, ?_, ?_, ?_, ?_, ?_⟩
          · simp only [migrateListRecords, hk', Bool.false_eq_true, if_false, hxv]
            simp only [M.bind, opPut_faulty, hP', if_false, Bool.false_eq_true]
            rw [← List.append_assoc]
            exact heq
          · intro e he
            rcases List.mem_append.mp he with h | h
            · simp at h
              rw [h]
              rfl
            · exact hdel e h
          · intro hok e he
            rcases List.mem_append.mp he with h | h
            · simp at h
              rw [h]
              rfl
            · exact hfail hok e h
          · intro hnc d' c' k' hold
            rw [hpres hnc d' c' k' hold]
            exact getRec_insertRec_notOld s sid nc x.uri.rkey val hnc d' c' k' hold
          · intro hs hx
            apply hmark
            · apply markersNone_insertRec s sid nc x.uri.rkey val hs
              rw [hval, rewrite_preserves_marker]
              exact hx x (List.mem_cons_self x xs) v hxv
            · exact fun y hy => hx y (List.mem_cons_of_mem x hy)

end Spores

namespace Spores

theorem newCollection_notOld : ∀ k : CollectionKey, isOldCollection (getCollection k .new) = false := by
  intro k
  cases k <;> rfl

theorem bind_value_some (o : Option Rec) (v : Value) (h : o.bind Rec.value = some v) :
    ∃ r, o = some r ∧ r.value = some v := by
  cases o with
  | none => exact absurd h (by simp)
  | some r => exact ⟨r, rfl, by simpa using h⟩

theorem migrateKey_faulty (sid : String) (F : Faults) (did : String) (key : CollectionKey)
    (s : Store) (t : List Ev) :
    ∃ Δ s' r, migrateKey (faultyBackend sid F) did key s t = (s', t ++ Δ, r) ∧
      (∀ e ∈ Δ, e.isDel = false) ∧
      (r = .ok () → ∀ e ∈ Δ, e.isFailedGetPut = false) ∧
      (∀ d' c' k', isOldCollection c' = true → s'.getRec d' c' k' = s.getRec d' c' k') ∧
      (markersNone s → markersNone s') := by
  by_cases hsk : isSingletonKey key = true
  · by_cases hG : F.onGet (getCollection key .old) CONFIG_RKEY = true
    · refine ⟨[.get did (getCollection key .old) CONFIG_RKEY false], s, .error (), ?_, ?_, ?_,
        fun _ _ _ _ => rfl, fun h => h⟩
      · simp only [migrateKey, hsk, if_true]
        simp [M.bind, opGet_faulty, hG]
      · intro e he
        simp at he
        rw [he]
        rfl
      · intro h
        exact absurd h (by simp)
    · have hG' : F.onGet (getCollection key .old) CONFIG_RKEY = false := by
        cases h : F.onGet (getCollection key .old) CONFIG_RKEY
        · rfl
        · exact absurd h hG
      cases hgv : (s.getRec did (getCollection key .old) CONFIG_RKEY).bind Rec.value with
      | none =>
        refine ⟨[.get did (getCollection key .old) CONFIG_RKEY true], s, .ok (), ?_, ?_, ?_,
          fun _ _ _ _ => rfl, fun h => h⟩
        · simp only [migrateKey, hsk, if_true]
          simp [M.bind, opGet_faulty, hG', hgv, M.pure]
        · intro e he
          simp at he
          rw [he]
          rfl
        · intro _ e he
          simp at he
          rw [he]
          rfl
      | some v =>
        by_cases hP : F.onPut (getCollection key .new) CONFIG_RKEY = true
        · refine ⟨[.get did (getCollection key .old) CONFIG_RKEY true,
            .put (getCollection key .new) CONFIG_RKEY
              (withTypeTag (rewriteRecordPayloadForNamespace (getCollection key .old) v .new)
                (getCollection key .new)) false], s, .error (), ?_, ?_, ?_,
            fun _ _ _ _ => rfl, fun h => h⟩
          · simp only [migrateKey, hsk, if_true]
            simp [M.bind, opGet_faulty, hG', hgv, opPut_faulty, hP]
          · intro e he
            simp at he
            rcases he with h | h <;> (rw [h]; rfl)
          · intro h
            exact absurd h (by simp)
        · have hP' : F.onPut (getCollection key .new) CONFIG_RKEY = false := by
            cases h : F.onPut (getCollection key .new) CONFIG_RKEY
            · rfl
            · exact absurd h hP
          set val := withTypeTag (rewriteRecordPayloadForNamespace (getCollection key .old) v .new)
            (getCollection key .new) with hval
          refine ⟨[.get did (getCollection key .old) CONFIG_RKEY true,
            .put (getCollection key .new) CONFIG_RKEY val true],
            s.insertRec sid (getCollection key .new) CONFIG_RKEY val, .ok (), ?_, ?_, ?_, ?_, ?_⟩
          · simp only [migrateKey, hsk, if_true]
            simp [M.bind, opGet_faulty, hG', hgv, opPut_faulty, hP', hval]
          · intro e he
            simp at he
            rcases he with h | h <;> (rw [h]; rfl)
          · intro _ e he
            simp at he
            rcases he with h | h <;> (rw [h]; rfl)
          · intro d' c' k' hold
            exact getRec_insertRec_notOld s sid (getCollection key .new) CONFIG_RKEY val
              (newCollection_notOld key) d' c' k' hold
          · intro hs
            apply markersNone_insertRec _ _ _ _ _ hs
            rw [hval, rewrite_preserves_marker]
            rcases bind_value_some _ _ hgv with ⟨r, hr, hrv⟩
            exact getRec_markerNone s did (getCollection key .old) CONFIG_RKEY hs r hr v hrv
  · have hsk' : isSingletonKey key = false := by
      cases h : isSingletonKey key
      · rfl
      · exact absurd h hsk
    rcases listAllGo_faulty sid F did (getCollection key .old) 50 none [] s t with
      ⟨Δ₁, recs, heq₁, hclean₁, hmark₁⟩
    rcases migrateListRecords_faulty sid F (getCollection key .new) (getCollection key .old)
      recs s (t ++ Δ₁) with ⟨Δ₂, s', r, heq₂, hdel₂, hfail₂, hpres₂, hmark₂⟩
    refine ⟨Δ₁ ++ Δ₂, s', r, ?_, ?_, ?_, ?_, ?_⟩
    · simp only [migrateKey, hsk', Bool.false_eq_true, if_false]
      simp only [M.bind, listAllRecordsForCollection]
      rw [heq₁]
      rw [← List.append_assoc]
      exact heq₂
    · intro e he
      rcases List.mem_append.mp he with h | h
      · exact (hclean₁ e h).2
      · exact hdel₂ e h
    · intro hok e he
      rcases List.mem_append.mp he with h | h
      · cases hp : e.isFailedGetPut
        · rfl
        · exact absurd hp (by rw [(hclean₁ e h).1]; simp)
      · exact hfail₂ hok e h
    · intro d' c' k' hold
      exact hpres₂ (newCollection_notOld key) d' c' k' hold
    · intro hs
      exact hmark₂ hs (hmark₁ hs (by simp))

end Spores

namespace Spores

theorem migrateKeys_faulty (sid : String) (F : Faults) (did : String) (ks : List CollectionKey) :
    ∀ (s : Store) (t : List Ev),
    ∃ Δ s' r, migrateKeys (faultyBackend sid F) did ks s t = (s', t ++ Δ, r) ∧
      (∀ e ∈ Δ, e.isDel = false) ∧
      (r = .ok () → ∀ e ∈ Δ, e.isFailedGetPut = false) ∧
      (∀ d' c' k', isOldCollection c' = true → s'.getRec d' c' k' = s.getRec d' c' k') ∧
      (markersNone s → markersNone s') := by
  induction ks with
  | nil =>
    intro s t
    exact ⟨[], s, .ok (), by simp [migrateKeys, M.pure], by simp, by simp,
      fun _ _ _ _ => rfl, fun h => h⟩
  | cons k ks ih =>
    intro s t
    rcases migrateKey_faulty sid F did k s t with ⟨Δ₁, s₁, r₁, heq₁, hdel₁, hfail₁, hpres₁, hmark₁⟩
    cases r₁ with
    | error e =>
      refine ⟨Δ₁, s₁, .error e, ?_, hdel₁, ?_, hpres₁, hmark₁⟩
      · simp only [migrateKeys, M.bind]
        rw [heq₁]
      · intro h
        exact absurd h (by simp)
    | ok u =>
      rcases ih s₁ (t ++ Δ₁) with ⟨Δ₂, s', r, heq₂, hdel₂, hfail₂, hpres₂, hmark₂⟩
      refine ⟨Δ₁ ++ Δ₂, s', r, ?_, ?_, ?_, ?_, fun hs => hmark₂ (hmark₁ hs)⟩
      · simp only [migrateKeys, M.bind]
        rw [heq₁, ← List.append_assoc]
        exact heq₂
      · intro e he
        rcases List.mem_append.mp he with h | h
        · exact hdel₁ e h
        · exact hdel₂ e h
      · intro hok e he
        rcases List.mem_append.mp he with h | h
        · exact hfail₁ rfl e h
        · exact hfail₂ hok e h
      · intro d' c' k' hold
        rw [hpres₂ d' c' k' hold, hpres₁ d' c' k' hold]

end Spores

namespace Spores

theorem migrateBody_faulty (sid : String) (F : Faults) (did : String) (s : Store) (t : List Ev) :
    ∃ Δ s' r, migrateBody (faultyBackend sid F) did s t = (s', t ++ Δ, r) ∧
      (∀ e ∈ Δ, e.isDel = false) ∧
      (r = .ok () → ∀ e ∈ Δ, e.isFailedGetPut = false) ∧
      (∀ d' c' k', isOldCollection c' = true → s'.getRec d' c' k' = s.getRec d' c' k') ∧
      (markersNone s → r = .error () → markersNone s') := by
  by_cases hG : F.onGet (getCollection .siteConfig .new) CONFIG_RKEY = true
  · refine ⟨[.get did (getCollection .siteConfig .new) CONFIG_RKEY false], s, .error (), ?_, ?_,
      ?_, fun _ _ _ _ => rfl, fun h _ => h⟩
    · simp [migrateBody, M.bind, opGet_faulty, hG]
    · intro e he
      simp at he
      rw [he]
      rfl
    · intro h
      exact absurd h (by simp)
  · have hG' : F.onGet (getCollection .siteConfig .new) CONFIG_RKEY = false := by
      cases h : F.onGet (getCollection .siteConfig .new) CONFIG_RKEY
      · rfl
      · exact absurd h hG
    by_cases hm : markerAtLeastCurrent (s.getRec did (getCollection .siteConfig .new) CONFIG_RKEY)
      = true
    · refine ⟨[.get did (getCollection .siteConfig .new) CONFIG_RKEY true], s, .ok (), ?_, ?_, ?_,
        fun _ _ _ _ => rfl, fun h _ => h⟩
      · simp [migrateBody, M.bind, opGet_faulty, hG', hm, M.pure]
      · intro e he
        simp at he
        rw [he]
        rfl
      · intro _ e he
        simp at he
        rw [he]
        rfl
    · have hm' : markerAtLeastCurrent
          (s.getRec did (getCollection .siteConfig .new) CONFIG_RKEY) = false := by
        cases h : markerAtLeastCurrent (s.getRec did (getCollection .siteConfig .new) CONFIG_RKEY)
        · rfl
        · exact absurd h hm
      rcases migrateKeys_faulty sid F did SPORE_COLLECTION_KEYS s
        (t ++ [.get did (getCollection .siteConfig .new) CONFIG_RKEY true]) with
        ⟨Δ₁, s₁, r₁, heq₁, hdel₁, hfail₁, hpres₁, hmark₁⟩
      cases r₁ with
      | error u =>
        refine ⟨[.get did (getCollection .siteConfig .new) CONFIG_RKEY true] ++ Δ₁, s₁,
          .error u, ?_, ?_, ?_, hpres₁, fun hs _ => hmark₁ hs⟩
        · simp only [migrateBody, M.bind, opGet_faulty, hG', if_false, Bool.false_eq_true, hm']
          rw [← List.append_assoc]
          rw [heq₁]
        · intro e he
          rcases List.mem_append.mp he with h | h
          · simp at h
            rw [h]
            rfl
          · exact hdel₁ e h
        · intro h
          exact absurd h (by simp)
      | ok u =>
        by_cases hG2 : F.onGet (getCollection .siteConfig .new) CONFIG_RKEY = true
        · exact absurd hG2 hG
        by_cases hG3 : F.onGet (getCollection .siteConfig .old) CONFIG_RKEY = true
        · refine ⟨[.get did (getCollection .siteConfig .new) CONFIG_RKEY true] ++ Δ₁ ++
            [.get did (getCollection .siteConfig .new) CONFIG_RKEY true,
             .get did (getCollection .siteConfig .old) CONFIG_RKEY false], s₁,
            .error (), ?_, ?_, ?_, hpres₁, fun hs _ => hmark₁ hs⟩
          · simp only [migrateBody, M.bind, opGet_faulty, hG', if_false, Bool.false_eq_true, hm']
            rw [← List.append_assoc]
            rw [heq₁]
            simp [opGet_faulty, hG', hG3, List.append_assoc]
          · intro e he
            simp only [List.mem_append] at he
            rcases he with (h | h) | h
            · simp at h
              rw [h]
              rfl
            · exact hdel₁ e h
            · simp at h
              rcases h with h | h <;> (rw [h]; rfl)
          · intro h
            exact absurd h (by simp)
        · have hG3' : F.onGet (getCollection .siteConfig .old) CONFIG_RKEY = false := by
            cases h : F.onGet (getCollection .siteConfig .old) CONFIG_RKEY
            · rfl
            · exact absurd h hG3
          set baseConfig := (((s₁.getRec did (getCollection .siteConfig .new)
            CONFIG_RKEY).bind Rec.value) <|>
            ((s₁.getRec did (getCollection .siteConfig .old) CONFIG_RKEY).bind Rec.value)).getD
            defaultBaseConfig with hbase
          set finalV : Value := { baseConfig with
            type := some (getCollection .siteConfig .new),
            nsidMigrationVersion := some NSID_MIGRATION_VERSION } with hfinal
          by_cases hP : F.onPut (getCollection .siteConfig .new) CONFIG_RKEY = true
          · refine ⟨[.get did (getCollection .siteConfig .new) CONFIG_RKEY true] ++ Δ₁ ++
              [.get did (getCollection .siteConfig .new) CONFIG_RKEY true,
               .get did (getCollection .siteConfig .old) CONFIG_RKEY true,
               .put (getCollection .siteConfig .new) CONFIG_RKEY finalV false], s₁,
              .error (), ?_, ?_, ?_, hpres₁, fun hs _ => hmark₁ hs⟩
            · simp only [migrateBody, M.bind, opGet_faulty, hG', if_false, Bool.false_eq_true, hm']
              rw [← List.append_assoc]
              rw [heq₁]
              simp [opGet_faulty, hG', hG3', opPut_faulty, hP, List.append_assoc, hbase, hfinal]
            · intro e he
              simp only [List.mem_append] at he
              rcases he with (h | h) | h
              · simp at h
                rw [h]
                rfl
              · exact hdel₁ e h
              · simp at h
                rcases h with h | h | h <;> (rw [h]; rfl)
            · intro h
              exact absurd h (by simp)
          · have hP' : F.onPut (getCollection .siteConfig .new) CONFIG_RKEY = false := by
              cases h : F.onPut (getCollection .siteConfig .new) CONFIG_RKEY
              · rfl
              · exact absurd h hP
            refine ⟨[.get did (getCollection .siteConfig .new) CONFIG_RKEY true] ++ Δ₁ ++
              [.get did (getCollection .siteConfig .new) CONFIG_RKEY true,
               .get did (getCollection .siteConfig .old) CONFIG_RKEY true,
               .put (getCollection .siteConfig .new) CONFIG_RKEY finalV true],
              s₁.insertRec sid (getCollection .siteConfig .new) CONFIG_RKEY finalV,
              .ok (), ?_, ?_, ?_, ?_, ?_⟩
            · simp only [migrateBody, M.bind, opGet_faulty, hG', if_false, Bool.false_eq_true, hm']
              rw [← List.append_assoc]
              rw [heq₁]
              simp [opGet_faulty, hG', hG3', opPut_faulty, hP', List.append_assoc, hbase, hfinal]
            · intro e he
              simp only [List.mem_append] at he
              rcases he with (h | h) | h
              · simp at h
                rw [h]
                rfl
              · exact hdel₁ e h
              · simp at h
                rcases h with h | h | h <;> (rw [h]; rfl)
            · intro _ e he
              simp only [List.mem_append] at he
              rcases he with (h | h) | h
              · simp at h
                rw [h]
                rfl
              · exact hfail₁ rfl e h
              · simp at h
                rcases h with h | h | h <;> (rw [h]; rfl)
            · intro d' c' k' hold
              rw [getRec_insertRec_notOld s₁ sid (getCollection .siteConfig .new) CONFIG_RKEY
                finalV (newCollection_notOld .siteConfig) d' c' k' hold]
              exact hpres₁ d' c' k' hold
            · intro _ h
              exact absurd h (by simp)

end Spores

namespace Spores

theorem migrate_disabled {σ : Type} (B : Backend σ) (env : Env) (did : String) (s : σ)
    (t : List Ev) (h : isNsidMigrationEnabled env = false) :
    migrateOwnerNsidRecords B env did s t = (s, t, .ok ()) := by
  simp [migrateOwnerNsidRecords, h, M.pure]

theorem migrate_unauthorized {σ : Type} (B : Backend σ) (env : Env) (did : String) (s : σ)
    (t : List Ev) (h : (env.loggedIn && env.currentDid == some did) = false) :
    migrateOwnerNsidRecords B env did s t = (s, t, .ok ()) := by
  by_cases he : isNsidMigrationEnabled env = true
  · simp [migrateOwnerNsidRecords, he, h, M.pure]
  · have he' : isNsidMigrationEnabled env = false := by
      cases h2 : isNsidMigrationEnabled env
      · rfl
      · exact absurd h2 he
    simp [migrateOwnerNsidRecords, he', M.pure]

theorem migrate_authorized {σ : Type} (B : Backend σ) (env : Env) (did : String) (s : σ)
    (t : List Ev) (he : isNsidMigrationEnabled env = true)
    (ha : (env.loggedIn && env.currentDid == some did) = true) :
    migrateOwnerNsidRecords B env did s t = M.attempt (migrateBody B did) s t := by
  simp [migrateOwnerNsidRecords, he, ha]

theorem migrateOwnerNsidRecords_faulty (sid : String) (F : Faults) (env : Env) (did : String)
    (s : Store) :
    ∃ Δ s', migrateOwnerNsidRecords (faultyBackend sid F) env did s [] = (s', Δ, .ok ()) ∧
      (∀ e ∈ Δ, e.isDel = false) ∧
      (∀ d' c' k', isOldCollection c' = true → s'.getRec d' c' k' = s.getRec d' c' k') ∧
      (markersNone s → (∃ e ∈ Δ, e.isFailedGetPut = true) → markersNone s') := by
  by_cases he : isNsidMigrationEnabled env = true
  · by_cases ha : (env.loggedIn && env.currentDid == some did) = true
    · rcases migrateBody_faulty sid F did s [] with ⟨Δ, s', r, heq, hdel, hfail, hpres, hmark⟩
      refine ⟨Δ, s', ?_, hdel, hpres, ?_⟩
      · rw [migrate_authorized _ _ _ _ _ he ha]
        unfold M.attempt
        rw [heq]
        simp
      · intro hs hex
        cases r with
        | ok u =>
          rcases hex with ⟨e, he2, hf⟩
          rw [hfail rfl e he2] at hf
          exact Bool.noConfusion hf
        | error u => exact hmark hs rfl
    · have ha' : (env.loggedIn && env.currentDid == some did) = false := by
        cases h2 : (env.loggedIn && env.currentDid == some did)
        · rfl
        · exact absurd h2 ha
      refine ⟨[], s, ?_, by simp, fun _ _ _ _ => rfl, fun h _ => h⟩
      rw [migrate_unauthorized _ _ _ _ _ ha']
  · have he' : isNsidMigrationEnabled env = false := by
      cases h2 : isNsidMigrationEnabled env
      · rfl
      · exact absurd h2 he
    refine ⟨[], s, ?_, by simp, fun _ _ _ _ => rfl, fun h _ => h⟩
    rw [migrate_disabled _ _ _ _ _ he']

end Spores

namespace Spores

theorem migrateListRecords_honest_ok (sid nc oc : String) (recs : List Rec) :
    ∀ (s : Store) (t : List Ev),
    ∃ s' Δ, migrateListRecords (honestBackend sid) nc oc recs s t = (s', t ++ Δ, .ok ()) := by
  induction recs with
  | nil =>
    intro s t
    exact ⟨s, [], by simp [migrateListRecords, M.pure]⟩
  | cons x xs ih =>
    intro s t
    by_cases hk : (x.uri.rkey == "") = true
    · rcases ih s t with ⟨s', Δ, heq⟩
      refine ⟨s', Δ, ?_⟩
      simp only [migrateListRecords, hk]
      exact heq
    · have hk' : (x.uri.rkey == "") = false := by
        cases h : (x.uri.rkey == "")
        · rfl
        · exact absurd h hk
      cases hxv : x.value with
      | none =>
        rcases ih s t with ⟨s', Δ, heq⟩
        refine ⟨s', Δ, ?_⟩
        simp only [migrateListRecords, hk', Bool.false_eq_true, if_false, hxv]
        exact heq
      | some v =>
        set val := withTypeTag (rewriteRecordPayloadForNamespace oc v .new) nc with hval
        rcases ih (s.insertRec sid nc x.uri.rkey val) (t ++ [.put nc x.uri.rkey val true]) with
          ⟨s', Δ, heq⟩
        refine ⟨s', [.put nc x.uri.rkey val true] ++ Δ, ?_⟩
        simp only [migrateListRecords, hk', Bool.false_eq_true, if_false, hxv]
        simp only [M.bind, honestBackend, opPut_faulty]
        have : noFaults.onPut nc x.uri.rkey = false := rfl
        rw [this]
        simp only [if_false, Bool.false_eq_true]
        rw [← List.append_assoc]
        exact heq

theorem migrateKey_honest_ok (sid did : String) (key : CollectionKey) (s : Store) (t : List Ev) :
    ∃ s' Δ, migrateKey (honestBackend sid) did key s t = (s', t ++ Δ, .ok ()) := by
  by_cases hsk : isSingletonKey key = true
  · cases hgv : (s.getRec did (getCollection key .old) CONFIG_RKEY).bind Rec.value with
    | none =>
      refine ⟨s, [.get did (getCollection key .old) CONFIG_RKEY true], ?_⟩
      simp only [migrateKey, hsk, if_true]
      simp [M.bind, honestBackend, opGet_faulty, noFaults, hgv, M.pure]
    | some v =>
      set val := withTypeTag (rewriteRecordPayloadForNamespace (getCollection key .old) v .new)
        (getCollection key .new) with hval
      refine ⟨s.insertRec sid (getCollection key .new) CONFIG_RKEY val,
        [.get did (getCollection key .old) CONFIG_RKEY true,
         .put (getCollection key .new) CONFIG_RKEY val true], ?_⟩
      simp only [migrateKey, hsk, if_true]
      simp [M.bind, honestBackend, opGet_faulty, opPut_faulty, noFaults, hgv, hval]
  · have hsk' : isSingletonKey key = false := by
      cases h : isSingletonKey key
      · rfl
      · exact absurd h hsk
    rcases listAllGo_faulty sid noFaults did (getCollection key .old) 50 none [] s t with
      ⟨Δ₁, recs, heq₁, -, -⟩
    rcases migrateListRecords_honest_ok sid (getCollection key .new) (getCollection key .old)
      recs s (t ++ Δ₁) with ⟨s', Δ₂, heq₂⟩
    refine ⟨s', Δ₁ ++ Δ₂, ?_⟩
    simp only [migrateKey, hsk', Bool.false_eq_true, if_false]
    simp only [M.bind, listAllRecordsForCollection, honestBackend]
    rw [heq₁]
    rw [← List.append_assoc]
    exact heq₂

theorem migrateKeys_honest_ok (sid did : String) (ks : List CollectionKey) :
    ∀ (s : Store) (t : List Ev),
    ∃ s' Δ, migrateKeys (honestBackend sid) did ks s t = (s', t ++ Δ, .ok ()) := by
  induction ks with
  | nil =>
    intro s t
    exact ⟨s, [], by simp [migrateKeys, M.pure]⟩
  | cons k ks ih =>
    intro s t
    rcases migrateKey_honest_ok sid did k s t with ⟨s₁, Δ₁, heq₁⟩
    rcases ih s₁ (t ++ Δ₁) with ⟨s', Δ₂, heq₂⟩
    refine ⟨s', Δ₁ ++ Δ₂, ?_⟩
    simp only [migrateKeys, M.bind]
    rw [heq₁, ← List.append_assoc]
    exact heq₂

theorem migrateBody_honest_shape (sid did : String) (s : Store) (t : List Ev)
    (hm' : markerAtLeastCurrent (s.getRec did (getCollection .siteConfig .new) CONFIG_RKEY)
      = false) :
    ∃ (s₁ : Store) (Δ : List Ev) (bc : Value), migrateBody (honestBackend sid) did s t =
      (s₁.insertRec sid (getCollection .siteConfig .new) CONFIG_RKEY
        { bc with
          type := some (getCollection .siteConfig .new),
          nsidMigrationVersion := some NSID_MIGRATION_VERSION },
       t ++ Δ, .ok ()) := by
  rcases migrateKeys_honest_ok sid did SPORE_COLLECTION_KEYS s
    (t ++ [.get did (getCollection .siteConfig .new) CONFIG_RKEY true]) with ⟨s₁, Δ₁, heq₁⟩
  set bc : Value := (((s₁.getRec did (getCollection .siteConfig .new) CONFIG_RKEY).bind
    Rec.value) <|>
    ((s₁.getRec did (getCollection .siteConfig .old) CONFIG_RKEY).bind Rec.value)).getD
    defaultBaseConfig with hbc
  refine ⟨s₁,
    [.get did (getCollection .siteConfig .new) CONFIG_RKEY true] ++ Δ₁ ++
      [.get did (getCollection .siteConfig .new) CONFIG_RKEY true,
       .get did (getCollection .siteConfig .old) CONFIG_RKEY true,
       .put (getCollection .siteConfig .new) CONFIG_RKEY
         { bc with
           type := some (getCollection .siteConfig .new),
           nsidMigrationVersion := some NSID_MIGRATION_VERSION } true],
    bc, ?_⟩
  simp only [migrateBody, M.bind, honestBackend, opGet_faulty]
  have hg : ∀ c k, noFaults.onGet c k = false := fun _ _ => rfl
  rw [hg]
  simp only [if_false, Bool.false_eq_true, hm']
  simp only [M.bind]
  simp only [honestBackend] at heq₁
  rw [heq₁]
  have hp : ∀ c k, noFaults.onPut c k = false := fun _ _ => rfl
  simp [opGet_faulty, opPut_faulty, hg, hp, M.pure, List.append_assoc, hbc]

theorem marker_after_insert (s : Store) (did nc : String) (fv : Value)
    (hv : fv.nsidMigrationVersion = some NSID_MIGRATION_VERSION) :
    markerAtLeastCurrent ((s.insertRec did nc CONFIG_RKEY fv).getRec did nc CONFIG_RKEY)
      = true := by
  rw [getRec_insertRec_self]
  unfold markerAtLeastCurrent
  simp [hv]

theorem migrate_fastpath (sid : String) (env : Env) (did : String) (s : Store) (t : List Ev)
    (he : isNsidMigrationEnabled env = true)
    (ha : (env.loggedIn && env.currentDid == some did) = true)
    (hm : markerAtLeastCurrent (s.getRec did (getCollection .siteConfig .new) CONFIG_RKEY)
      = true) :
    migrateOwnerNsidRecords (honestBackend sid) env did s t =
      (s, t ++ [.get did (getCollection .siteConfig .new) CONFIG_RKEY true], .ok ()) := by
  rw [migrate_authorized _ _ _ _ _ he ha]
  unfold M.attempt
  simp only [migrateBody, M.bind, honestBackend, opGet_faulty]
  have hg : ∀ c k, noFaults.onGet c k = false := fun _ _ => rfl
  rw [hg]
  simp [hm, M.pure]

theorem migrate_marker_after (env : Env) (did : String) (s : Store)
    (he : isNsidMigrationEnabled env = true)
    (ha : (env.loggedIn && env.currentDid == some did) = true) :
    markerAtLeastCurrent
      (((migrateOwnerNsidRecords (honestBackend did) env did s []).1).getRec did
        (getCollection .siteConfig .new) CONFIG_RKEY) = true := by
  by_cases hm : markerAtLeastCurrent (s.getRec did (getCollection .siteConfig .new) CONFIG_RKEY)
      = true
  · rw [migrate_fastpath did env did s [] he ha hm]
    exact hm
  · have hm' : markerAtLeastCurrent
        (s.getRec did (getCollection .siteConfig .new) CONFIG_RKEY) = false := by
      cases h : markerAtLeastCurrent (s.getRec did (getCollection .siteConfig .new) CONFIG_RKEY)
      · rfl
      · exact absurd h hm
    rw [migrate_authorized _ _ _ _ _ he ha]
    unfold M.attempt
    rcases migrateBody_honest_shape did did s [] hm' with ⟨s₁, Δ, bc, heq⟩
    rw [heq]
    exact marker_after_insert s₁ did (getCollection .siteConfig .new) _ rfl

end Spores

namespace Spores

/-- Is the collection identifier one of the new-namespace identifiers? -/
def isNewCollection (c : String) : Bool :=
  (keyOfCollection c .new).isSome

/-- The new-namespace records of a store. -/
def Store.newNamespaceEntries (s : Store) : Store :=
  s.filter (fun e => isNewCollection e.coll)

/-- A tenant's migration-marker value: the marker field of the
new-namespace singleton configuration record. -/
def markerValue (s : Store) (did : String) : Option Int :=
  (s.lookup did (getCollection .siteConfig .new) CONFIG_RKEY).bind Value.nsidMigrationVersion

/-- One run of the migration orchestrator against the concrete fault-free
store, the session being the authenticated tenant, returning the store it
leaves behind. -/
def runStore (env : Env) (did : String) (s : Store) : Store :=
  (migrateOwnerNsidRecords (honestBackend (env.currentDid.getD "")) env did s []).1

/-- N successive runs of the migration orchestrator. -/
def runStoreN (env : Env) (did : String) : Nat → Store → Store
  | 0, s => s
  | n + 1, s => runStoreN env did n (runStore env did s)

theorem runStore_idem (env : Env) (did : String) (s : Store) :
    runStore env did (runStore env did s) = runStore env did s := by
  by_cases he : isNsidMigrationEnabled env = true
  · by_cases ha : (env.loggedIn && env.currentDid == some did) = true
    · have hdid : env.currentDid = some did := by
        have := (Bool.and_eq_true _ _).mp ha
        exact eq_of_beq this.2
      have hsid : env.currentDid.getD "" = did := by rw [hdid]; rfl
      unfold runStore
      rw [hsid]
      have hm := migrate_marker_after env did s he ha
      rw [migrate_fastpath did env did _ [] he ha hm]
    · have ha' : (env.loggedIn && env.currentDid == some did) = false := by
        cases h2 : (env.loggedIn && env.currentDid == some did)
        · rfl
        · exact absurd h2 ha
      unfold runStore
      rw [migrate_unauthorized _ _ _ _ _ ha', migrate_unauthorized _ _ _ _ _ ha']
  · have he' : isNsidMigrationEnabled env = false := by
      cases h2 : isNsidMigrationEnabled env
      · rfl
      · exact absurd h2 he
    unfold runStore
    rw [migrate_disabled _ _ _ _ _ he', migrate_disabled _ _ _ _ _ he']

theorem runStoreN_stable (env : Env) (did : String) :
    ∀ (n : Nat) (s : Store), 1 ≤ n → runStoreN env did n s = runStore env did s := by
  intro n
  induction n with
  | zero => intro s h; exact absurd h (by decide)
  | succ m ih =>
    intro s _
    cases m with
    | zero => rfl
    | succ m' =>
      show runStoreN env did (m' + 1) (runStore env did s) = runStore env did s
      rw [ih (runStore env did s) (Nat.succ_le_succ (Nat.zero_le m'))]
      exact runStore_idem env did s

/-- C1.  Migration runs are idempotent: for every tenant and every
sequence of N ≥ 1 runs of `migrateOwnerNsidRecords` against the fault-free
store (all runs successful, source unchanged between runs), the set of
new-namespace records and the migration-marker value after the N runs
equal those after exactly 1 run. -/
theorem claim_C1 (env : Env) (did : String) (s : Store) (n : Nat) (h : 1 ≤ n) :
    (runStoreN env did n s).newNamespaceEntries =
      (runStoreN env did 1 s).newNamespaceEntries ∧
    markerValue (runStoreN env did n s) did = markerValue (runStoreN env did 1 s) did := by
  have h1 : runStoreN env did 1 s = runStore env did s := rfl
  rw [runStoreN_stable env did n s h, h1]
  exact ⟨rfl, rfl⟩

/-- Witness for C1 at a concrete input: three runs on a concrete store
leave the same new-namespace records and marker as one run. -/
theorem claim_C1_witness :
    1 ≤ 3 ∧
    ((runStoreN { flagRaw := "true", loggedIn := true, currentDid := some "did:plc:w" }
        "did:plc:w" 3 []).newNamespaceEntries =
      (runStoreN { flagRaw := "true", loggedIn := true, currentDid := some "did:plc:w" }
        "did:plc:w" 1 []).newNamespaceEntries ∧
     markerValue (runStoreN { flagRaw := "true", loggedIn := true, currentDid := some "did:plc:w" }
        "did:plc:w" 3 []) "did:plc:w" =
      markerValue (runStoreN { flagRaw := "true", loggedIn := true, currentDid := some "did:plc:w" }
        "did:plc:w" 1 []) "did:plc:w") :=
  ⟨by decide,
   claim_C1 { flagRaw := "true", loggedIn := true, currentDid := some "did:plc:w" }
     "did:plc:w" [] 3 (by decide)⟩

end Spores

namespace Spores

/-- C2.  Authorization gate has zero effect: for every backend and target
tenant, if the caller is not logged in or the authenticated tenant differs
from the target, a run of `migrateOwnerNsidRecords` issues zero store read
calls and zero store write calls and leaves the store untouched. -/
theorem claim_C2 {σ : Type} (B : Backend σ) (env : Env) (did : String) (s : σ)
    (h : env.loggedIn = false ∨ env.currentDid ≠ some did) :
    (migrateOwnerNsidRecords B env did s []).2.1.filter Ev.isRead = [] ∧
    (migrateOwnerNsidRecords B env did s []).2.1.filter Ev.isWrite = [] ∧
    (migrateOwnerNsidRecords B env did s []).1 = s := by
  have hb : (env.loggedIn && env.currentDid == some did) = false := by
    rcases h with h | h
    · simp [h]
    · have : (env.currentDid == some did) = false := by
        cases h2 : env.currentDid == some did
        · rfl
        · exact absurd (eq_of_beq h2) h
      simp [this]
  rw [migrate_unauthorized B env did s [] hb]
  exact ⟨rfl, rfl, rfl⟩

/-- Witness for C2 at a concrete input: a logged-in visitor whose DID
differs from the target tenant triggers no store calls. -/
theorem claim_C2_witness :
    (({ flagRaw := "true", loggedIn := true, currentDid := some "did:plc:visitor" } : Env).loggedIn
        = false ∨
      ({ flagRaw := "true", loggedIn := true, currentDid := some "did:plc:visitor" } : Env).currentDid
        ≠ some "did:plc:owner") ∧
    ((migrateOwnerNsidRecords (honestBackend "did:plc:visitor")
        { flagRaw := "true", loggedIn := true, currentDid := some "did:plc:visitor" }
        "did:plc:owner" [] []).2.1.filter Ev.isRead = [] ∧
     (migrateOwnerNsidRecords (honestBackend "did:plc:visitor")
        { flagRaw := "true", loggedIn := true, currentDid := some "did:plc:visitor" }
        "did:plc:owner" [] []).2.1.filter Ev.isWrite = [] ∧
     (migrateOwnerNsidRecords (honestBackend "did:plc:visitor")
        { flagRaw := "true", loggedIn := true, currentDid := some "did:plc:visitor" }
        "did:plc:owner" [] []).1 = []) :=
  ⟨Or.inr (by decide),
   claim_C2 (honestBackend "did:plc:visitor")
     { flagRaw := "true", loggedIn := true, currentDid := some "did:plc:visitor" }
     "did:plc:owner" [] (Or.inr (by decide))⟩

/-- C10.  Rollout-flag gate: for every backend and tenant, if the rollout
flag is disabled, `migrateOwnerNsidRecords` returns immediately with zero
store reads and zero store writes, even when the caller is authenticated
as that tenant. -/
theorem claim_C10 {σ : Type} (B : Backend σ) (env : Env) (did : String) (s : σ)
    (h : isNsidMigrationEnabled env = false) :
    (migrateOwnerNsidRecords B env did s []).2.1.filter Ev.isRead = [] ∧
    (migrateOwnerNsidRecords B env did s []).2.1.filter Ev.isWrite = [] ∧
    (migrateOwnerNsidRecords B env did s []).1 = s := by
  rw [migrate_disabled B env did s [] h]
  exact ⟨rfl, rfl, rfl⟩

/-- Witness for C10 at a concrete input: flag disabled and the caller
authenticated as the tenant, still zero store calls. -/
theorem claim_C10_witness :
    isNsidMigrationEnabled { flagRaw := "", loggedIn := true, currentDid := some "did:plc:w" }
      = false ∧
    ((migrateOwnerNsidRecords (honestBackend "did:plc:w")
        { flagRaw := "", loggedIn := true, currentDid := some "did:plc:w" }
        "did:plc:w" [] []).2.1.filter Ev.isRead = [] ∧
     (migrateOwnerNsidRecords (honestBackend "did:plc:w")
        { flagRaw := "", loggedIn := true, currentDid := some "did:plc:w" }
        "did:plc:w" [] []).2.1.filter Ev.isWrite = [] ∧
     (migrateOwnerNsidRecords (honestBackend "did:plc:w")
        { flagRaw := "", loggedIn := true, currentDid := some "did:plc:w" }
        "did:plc:w" [] []).1 = []) :=
  ⟨by decide,
   claim_C10 (honestBackend "did:plc:w")
     { flagRaw := "", loggedIn := true, currentDid := some "did:plc:w" }
     "did:plc:w" [] (by decide)⟩

/-- C5.  Marker fast path: for every session, environment, tenant and
store, if the new-namespace singleton configuration record carries a
migration marker ≥ CURRENT_VERSION at the start of a run, the run of
`migrateOwnerNsidRecords` against the fault-free store performs zero store
writes and leaves the store untouched. -/
theorem claim_C5 (sid : String) (env : Env) (did : String) (s : Store)
    (hm : markerAtLeastCurrent (s.getRec did (getCollection .siteConfig .new) CONFIG_RKEY)
      = true) :
    (migrateOwnerNsidRecords (honestBackend sid) env did s []).2.1.filter Ev.isWrite = [] ∧
    (migrateOwnerNsidRecords (honestBackend sid) env did s []).1 = s := by
  by_cases he : isNsidMigrationEnabled env = true
  · by_cases ha : (env.loggedIn && env.currentDid == some did) = true
    · rw [migrate_fastpath sid env did s [] he ha hm]
      exact ⟨rfl, rfl⟩
    · have ha' : (env.loggedIn && env.currentDid == some did) = false := by
        cases h2 : (env.loggedIn && env.currentDid == some did)
        · rfl
        · exact absurd h2 ha
      rw [migrate_unauthorized _ _ _ _ _ ha']
      exact ⟨rfl, rfl⟩
  · have he' : isNsidMigrationEnabled env = false := by
      cases h2 : isNsidMigrationEnabled env
      · rfl
      · exact absurd h2 he
    rw [migrate_disabled _ _ _ _ _ he']
    exact ⟨rfl, rfl⟩

/-- Witness for C5 at a concrete input: a store already carrying the
marker sees zero writes from an authorized, enabled run. -/
theorem claim_C5_witness :
    markerAtLeastCurrent
      (Store.getRec [⟨"did:plc:w", "coop.hypha.spores.site.config", "self",
          { nsidMigrationVersion := some 1 }⟩] "did:plc:w"
        (getCollection .siteConfig .new) CONFIG_RKEY) = true ∧
    ((migrateOwnerNsidRecords (honestBackend "did:plc:w")
        { flagRaw := "true", loggedIn := true, currentDid := some "did:plc:w" } "did:plc:w"
        [⟨"did:plc:w", "coop.hypha.spores.site.config", "self",
          { nsidMigrationVersion := some 1 }⟩] []).2.1.filter Ev.isWrite = [] ∧
     (migrateOwnerNsidRecords (honestBackend "did:plc:w")
        { flagRaw := "true", loggedIn := true, currentDid := some "did:plc:w" } "did:plc:w"
        [⟨"did:plc:w", "coop.hypha.spores.site.config", "self",
          { nsidMigrationVersion := some 1 }⟩] []).1 =
      [⟨"did:plc:w", "coop.hypha.spores.site.config", "self",
        { nsidMigrationVersion := some 1 }⟩]) :=
  ⟨by decide,
   claim_C5 "did:plc:w" { flagRaw := "true", loggedIn := true, currentDid := some "did:plc:w" }
     "did:plc:w"
     [⟨"did:plc:w", "coop.hypha.spores.site.config", "self",
       { nsidMigrationVersion := some 1 }⟩] (by decide)⟩

end Spores

namespace Spores

theorem markersNone_markerValue (s : Store) (did : String) (hs : markersNone s) :
    markerValue s did = none := by
  unfold markerValue Store.lookup
  cases hfind : s.find? (fun e => e.matches did (getCollection .siteConfig .new) CONFIG_RKEY) with
  | none => rfl
  | some e =>
    have he : e ∈ s := List.mem_of_find?_eq_some hfind
    simp [hs e he]

/-- C4 (amended).  Abort semantics of the orchestrator: the run never
re-raises to the caller; and on a store holding only marker-free records,
if any getRecord or putRecord call fails during the run, the migration
marker is not committed by that run (a failing listRecords, by contrast,
is swallowed by the pagination loop — see the counterexample). -/
theorem claim_C4 (sid : String) (F : Faults) (env : Env) (did : String) (s : Store)
    (hs : markersNone s) :
    (migrateOwnerNsidRecords (faultyBackend sid F) env did s []).2.2 = .ok () ∧
    ((∃ e ∈ (migrateOwnerNsidRecords (faultyBackend sid F) env did s []).2.1,
        e.isFailedGetPut = true) →
      markerValue (migrateOwnerNsidRecords (faultyBackend sid F) env did s []).1 did = none) := by
  rcases migrateOwnerNsidRecords_faulty sid F env did s with ⟨Δ, s', heq, -, -, hmark⟩
  rw [heq]
  refine ⟨rfl, ?_⟩
  intro hex
  exact markersNone_markerValue s' did (hmark hs hex)

/-- Witness for C4 at a concrete input: every putRecord fails, so the
first singleton copy aborts the run; the trace holds a failed put and the
marker is not committed. -/
theorem claim_C4_witness :
    markersNone [⟨"did:plc:w", "garden.spores.site.config", "self", { title := some "t" }⟩] ∧
    ((migrateOwnerNsidRecords
        (faultyBackend "did:plc:w" { onPut := fun _ _ => true })
        { flagRaw := "true", loggedIn := true, currentDid := some "did:plc:w" } "did:plc:w"
        [⟨"did:plc:w", "garden.spores.site.config", "self", { title := some "t" }⟩] []).2.2
        = .ok () ∧
     ((∃ e ∈ (migrateOwnerNsidRecords
          (faultyBackend "did:plc:w" { onPut := fun _ _ => true })
          { flagRaw := "true", loggedIn := true, currentDid := some "did:plc:w" } "did:plc:w"
          [⟨"did:plc:w", "garden.spores.site.config", "self", { title := some "t" }⟩] []).2.1,
          e.isFailedGetPut = true) →
       markerValue (migrateOwnerNsidRecords
          (faultyBackend "did:plc:w" { onPut := fun _ _ => true })
          { flagRaw := "true", loggedIn := true, currentDid := some "did:plc:w" } "did:plc:w"
          [⟨"did:plc:w", "garden.spores.site.config", "self", { title := some "t" }⟩] []).1
          "did:plc:w" = none)) :=
  ⟨by unfold markersNone; decide,
   claim_C4 "did:plc:w" { onPut := fun _ _ => true }
     { flagRaw := "true", loggedIn := true, currentDid := some "did:plc:w" } "did:plc:w"
     [⟨"did:plc:w", "garden.spores.site.config", "self", { title := some "t" }⟩]
     (by unfold markersNone; decide)⟩

/-- Counterexample to C4 as stated: with a store whose listRecords always
raises (a store read failing during the run), the orchestrator does not
abort — the pagination loop swallows the error (`.catch(() => null)` at
config.ts:217), the run continues, and the finalize step still commits the
migration marker. -/
theorem claim_C4_counterexample :
    ((migrateOwnerNsidRecords (faultyBackend "did:plc:w" { onList := fun _ => true })
        { flagRaw := "true", loggedIn := true, currentDid := some "did:plc:w" }
        "did:plc:w" [] []).2.1.any
      (fun e => e.isRead && !(match e with
        | .get _ _ _ ok => ok
        | .list _ _ _ ok => ok
        | _ => true))) = true ∧
    markerValue (migrateOwnerNsidRecords (faultyBackend "did:plc:w" { onList := fun _ => true })
        { flagRaw := "true", loggedIn := true, currentDid := some "did:plc:w" }
        "did:plc:w" [] []).1 "did:plc:w" = some NSID_MIGRATION_VERSION ∧
    (migrateOwnerNsidRecords (faultyBackend "did:plc:w" { onList := fun _ => true })
        { flagRaw := "true", loggedIn := true, currentDid := some "did:plc:w" }
        "did:plc:w" [] []).2.2 = .ok () := by
  refine ⟨?_, ?_, ?_⟩ <;> decide

end Spores

namespace Spores

/-- Old-namespace presence preservation between two stores: every
old-namespace record present in the first is present in the second. -/
def presOld (s s' : Store) : Prop :=
  ∀ d c k, isOldCollection c = true → (Store.getRec s d c k).isSome = true →
    (Store.getRec s' d c k).isSome = true

/-- Every delete event in the trace targets only the legacy
pre-namespace sections collection. -/
def delsOnlyLegacy (Δ : List Ev) : Prop :=
  ∀ e ∈ Δ, ∀ c, e.delTarget = some c → c = OLD_SECTIONS_COLLECTION

theorem presOld_refl (s : Store) : presOld s s := fun _ _ _ _ h => h

theorem presOld_trans {s₁ s₂ s₃ : Store} (h₁ : presOld s₁ s₂) (h₂ : presOld s₂ s₃) :
    presOld s₁ s₃ :=
  fun d c k hold hp => h₂ d c k hold (h₁ d c k hold hp)

theorem presOld_insertRec (s : Store) (sid c₀ k₀ : String) (v : Value) :
    presOld s (s.insertRec sid c₀ k₀ v) := by
  intro d c k _ hp
  by_cases h : d = sid ∧ c = c₀ ∧ k = k₀
  · rcases h with ⟨h1, h2, h3⟩
    rw [h1, h2, h3, getRec_insertRec_self]
    rfl
  · rw [getRec_insertRec_ne _ _ _ _ _ _ _ _ h]
    exact hp

theorem presOld_eraseRec_notOld (s : Store) (sid c₀ k₀ : String)
    (hc : isOldCollection c₀ = false) :
    presOld s (s.eraseRec sid c₀ k₀) := by
  intro d c k hold hp
  have hne : ¬(d = sid ∧ c = c₀ ∧ k = k₀) := by
    rintro ⟨-, h2, -⟩
    rw [h2] at hold
    rw [hold] at hc
    exact Bool.noConfusion hc
  rw [getRec_eraseRec_ne _ _ _ _ _ _ _ hne]
  exact hp

theorem delsOnlyLegacy_nil : delsOnlyLegacy [] := by
  intro e he
  exact absurd he (by simp)

theorem delsOnlyLegacy_append {Δ₁ Δ₂ : List Ev} (h₁ : delsOnlyLegacy Δ₁)
    (h₂ : delsOnlyLegacy Δ₂) : delsOnlyLegacy (Δ₁ ++ Δ₂) := by
  intro e he
  rcases List.mem_append.mp he with h | h
  · exact h₁ e h
  · exact h₂ e h

theorem delsOnlyLegacy_nondel (Δ : List Ev) (h : ∀ e ∈ Δ, e.delTarget = none) :
    delsOnlyLegacy Δ := by
  intro e he c hc
  rw [h e he] at hc
  exact absurd hc (by simp)

theorem createLegacySections_load (sid : String) (F : Faults) (coll : String)
    (secs : List LegacySection) : ∀ (s : Store) (t : List Ev),
    ∃ Δ s' r, createLegacySections (faultyBackend sid F) coll secs s t = (s', t ++ Δ, r) ∧
      delsOnlyLegacy Δ ∧ presOld s s' := by
  induction secs with
  | nil =>
    intro s t
    exact ⟨[], s, .ok [], by simp [createLegacySections, M.pure], delsOnlyLegacy_nil,
      presOld_refl s⟩
  | cons x xs ih =>
    intro s t
    by_cases hC : F.onCreate coll = true
    · refine ⟨[.create coll (buildLegacySectionRecord coll x) false], s, .error (), ?_, ?_,
        presOld_refl s⟩
      · simp [createLegacySections, M.bind, opCreate_faulty, hC]
      · apply delsOnlyLegacy_nondel
        intro e he
        simp at he
        rw [he]
        rfl
    · have hC' : F.onCreate coll = false := by
        cases h : F.onCreate coll
        · rfl
        · exact absurd h hC
      set s₁ := s.insertRec sid coll ("gen" ++ toString s.length)
        (buildLegacySectionRecord coll x) with hs₁
      rcases ih s₁ (t ++ [.create coll (buildLegacySectionRecord coll x) true]) with
        ⟨Δ, s', r, heq, hdel, hpres⟩
      cases r with
      | error u =>
        refine ⟨[.create coll (buildLegacySectionRecord coll x) true] ++ Δ, s', .error u, ?_,
          ?_, presOld_trans (presOld_insertRec s sid coll _ _) hpres⟩
        · simp only [createLegacySections, M.bind, opCreate_faulty, hC', if_false,
            Bool.false_eq_true]
          rw [← List.append_assoc, ← hs₁]
          rw [heq]
        · refine delsOnlyLegacy_append ?_ hdel
          apply delsOnlyLegacy_nondel
          intro e he
          simp at he
          rw [he]
          rfl
      | ok uris =>
        refine ⟨[.create coll (buildLegacySectionRecord coll x) true] ++ Δ, s',
          .ok (⟨sid, coll, "gen" ++ toString s.length⟩ :: uris), ?_, ?_,
          presOld_trans (presOld_insertRec s sid coll _ _) hpres⟩
        · simp only [createLegacySections, M.bind, opCreate_faulty, hC', if_false,
            Bool.false_eq_true]
          rw [← List.append_assoc, ← hs₁]
          rw [heq]
          simp [M.pure]
        · refine delsOnlyLegacy_append ?_ hdel
          apply delsOnlyLegacy_nondel
          intro e he
          simp at he
          rw [he]
          rfl

theorem migrateSections_load (sid : String) (F : Faults) (env : Env) (did : String)
    (s : Store) (t : List Ev) :
    ∃ Δ s' r, migrateSections (faultyBackend sid F) env did s t = (s', t ++ Δ, r) ∧
      delsOnlyLegacy Δ ∧ presOld s s' := by
  by_cases hauth : (env.loggedIn && env.currentDid == some did) = true
  · by_cases hG : F.onGet OLD_SECTIONS_COLLECTION CONFIG_RKEY = true
    · refine ⟨[.get did OLD_SECTIONS_COLLECTION CONFIG_RKEY false], s, .ok (), ?_, ?_,
        presOld_refl s⟩
      · simp [migrateSections, hauth, M.attempt, M.bind, opGet_faulty, hG]
      · apply delsOnlyLegacy_nondel
        intro e he
        simp at he
        rw [he]
        rfl
    · have hG' : F.onGet OLD_SECTIONS_COLLECTION CONFIG_RKEY = false := by
        cases h : F.onGet OLD_SECTIONS_COLLECTION CONFIG_RKEY
        · rfl
        · exact absurd h hG
      cases hls : ((Store.getRec s did OLD_SECTIONS_COLLECTION CONFIG_RKEY).bind
          Rec.value).bind Value.legacySections with
      | none =>
        refine ⟨[.get did OLD_SECTIONS_COLLECTION CONFIG_RKEY true], s, .ok (), ?_, ?_,
          presOld_refl s⟩
        · simp [migrateSections, hauth, M.attempt, M.bind, opGet_faulty, hG', hls, M.pure]
        · apply delsOnlyLegacy_nondel
          intro e he
          simp at he
          rw [he]
          rfl
      | some secs =>
        rcases createLegacySections_load sid F (getCollection .siteSection (getWriteNamespace env))
          secs s (t ++ [.get did OLD_SECTIONS_COLLECTION CONFIG_RKEY true]) with
          ⟨Δ₁, s₁, r₁, heq₁, hdel₁, hpres₁⟩
        cases r₁ with
        | error u =>
          refine ⟨[.get did OLD_SECTIONS_COLLECTION CONFIG_RKEY true] ++ Δ₁, s₁, .ok (), ?_,
            ?_, hpres₁⟩
          · simp only [migrateSections, hauth, Bool.not_true, Bool.false_eq_true, if_false,
              M.attempt, M.bind, opGet_faulty, hG', hls]
            rw [← List.append_assoc]
            rw [heq₁]
          · refine delsOnlyLegacy_append ?_ hdel₁
            apply delsOnlyLegacy_nondel
            intro e he
            simp at he
            rw [he]
            rfl
        | ok uris =>
          by_cases hP : F.onPut (getCollection .siteLayout (getWriteNamespace env)) CONFIG_RKEY
              = true
          · refine ⟨[.get did OLD_SECTIONS_COLLECTION CONFIG_RKEY true] ++ Δ₁ ++
              [.put (getCollection .siteLayout (getWriteNamespace env)) CONFIG_RKEY
                { type := some (getCollection .siteLayout (getWriteNamespace env)),
                  sectionUris := some uris } false], s₁, .ok (), ?_, ?_, hpres₁⟩
            · simp only [migrateSections, hauth, Bool.not_true, Bool.false_eq_true, if_false,
                M.attempt, M.bind, opGet_faulty, hG', hls]
              rw [← List.append_assoc]
              rw [heq₁]
              simp [opPut_faulty, hP, List.append_assoc]
            · refine delsOnlyLegacy_append (delsOnlyLegacy_append ?_ hdel₁) ?_ <;>
                (apply delsOnlyLegacy_nondel; intro e he; simp at he; rw [he]; rfl)
          · have hP' : F.onPut (getCollection .siteLayout (getWriteNamespace env)) CONFIG_RKEY
                = false := by
              cases h : F.onPut (getCollection .siteLayout (getWriteNamespace env)) CONFIG_RKEY
              · rfl
              · exact absurd h hP
            set s₂ := s₁.insertRec sid (getCollection .siteLayout (getWriteNamespace env))
              CONFIG_RKEY
              { type := some (getCollection .siteLayout (getWriteNamespace env)),
                sectionUris := some uris } with hs₂
            by_cases hD : F.onDel OLD_SECTIONS_COLLECTION CONFIG_RKEY = true
            · refine ⟨[.get did OLD_SECTIONS_COLLECTION CONFIG_RKEY true] ++ Δ₁ ++
                [.put (getCollection .siteLayout (getWriteNamespace env)) CONFIG_RKEY
                  { type := some (getCollection .siteLayout (getWriteNamespace env)),
                    sectionUris := some uris } true,
                 .del OLD_SECTIONS_COLLECTION CONFIG_RKEY false], s₂, .ok (), ?_, ?_,
                presOld_trans hpres₁ (presOld_insertRec s₁ sid _ _ _)⟩
              · simp only [migrateSections, hauth, Bool.not_true, Bool.false_eq_true, if_false,
                  M.attempt, M.bind, opGet_faulty, hG', hls]
                rw [← List.append_assoc]
                rw [heq₁]
                simp [opPut_faulty, hP', opDel_faulty, hD, List.append_assoc, hs₂]
              · refine delsOnlyLegacy_append (delsOnlyLegacy_append ?_ hdel₁) ?_
                · apply delsOnlyLegacy_nondel
                  intro e he
                  simp at he
                  rw [he]
                  rfl
                · intro e he c hc
                  simp at he
                  rcases he with h | h <;> rw [h] at hc
                  · exact absurd hc (by simp [Ev.delTarget])
                  · simp [Ev.delTarget] at hc
                    rw [← hc]
            · have hD' : F.onDel OLD_SECTIONS_COLLECTION CONFIG_RKEY = false := by
                cases h : F.onDel OLD_SECTIONS_COLLECTION CONFIG_RKEY
                · rfl
                · exact absurd h hD
              refine ⟨[.get did OLD_SECTIONS_COLLECTION CONFIG_RKEY true] ++ Δ₁ ++
                [.put (getCollection .siteLayout (getWriteNamespace env)) CONFIG_RKEY
                  { type := some (getCollection .siteLayout (getWriteNamespace env)),
                    sectionUris := some uris } true,
                 .del OLD_SECTIONS_COLLECTION CONFIG_RKEY true],
                s₂.eraseRec sid OLD_SECTIONS_COLLECTION CONFIG_RKEY, .ok (), ?_, ?_,
                presOld_trans hpres₁ (presOld_trans (presOld_insertRec s₁ sid _ _ _)
                  (presOld_eraseRec_notOld s₂ sid _ _ (by decide)))⟩
              · simp only [migrateSections, hauth, Bool.not_true, Bool.false_eq_true, if_false,
                  M.attempt, M.bind, opGet_faulty, hG', hls]
                rw [← List.append_assoc]
                rw [heq₁]
                simp [opPut_faulty, hP', opDel_faulty, hD', List.append_assoc, hs₂]
              · refine delsOnlyLegacy_append (delsOnlyLegacy_append ?_ hdel₁) ?_
                · apply delsOnlyLegacy_nondel
                  intro e he
                  simp at he
                  rw [he]
                  rfl
                · intro e he c hc
                  simp at he
                  rcases he with h | h <;> rw [h] at hc
                  · exact absurd hc (by simp [Ev.delTarget])
                  · simp [Ev.delTarget] at hc
                    rw [← hc]
  · have hauth' : (env.loggedIn && env.currentDid == some did) = false := by
      cases h : (env.loggedIn && env.currentDid == some did)
      · rfl
      · exact absurd h hauth
    refine ⟨[], s, .ok (), ?_, delsOnlyLegacy_nil, presOld_refl s⟩
    simp [migrateSections, hauth', M.pure]

end Spores

namespace Spores

theorem delTarget_none_of_not_isDel (e : Ev) (h : e.isDel = false) : e.delTarget = none := by
  cases e <;> simp [Ev.delTarget]
  exact absurd h (by simp [Ev.isDel])

theorem scanNamespaces_load (sid : String) (F : Faults) (did : String) (nss : List Ns) :
    ∀ (s : Store) (t : List Ev),
    ∃ Δ r, scanNamespaces (faultyBackend sid F) did nss s t = (s, t ++ Δ, r) ∧
      ∀ e ∈ Δ, e.delTarget = none := by
  induction nss with
  | nil =>
    intro s t
    exact ⟨[], .ok none, by simp [scanNamespaces, M.pure], by simp⟩
  | cons ns rest ih =>
    intro s t
    by_cases hG1 : F.onGet (getCollection .siteConfig ns) CONFIG_RKEY = true
    · refine ⟨[.get did (getCollection .siteConfig ns) CONFIG_RKEY false], .error (), ?_, ?_⟩
      · simp [scanNamespaces, M.bind, opGet_faulty, hG1]
      · intro e he
        simp at he
        rw [he]
        rfl
    · have hG1' : F.onGet (getCollection .siteConfig ns) CONFIG_RKEY = false := by
        cases h : F.onGet (getCollection .siteConfig ns) CONFIG_RKEY
        · rfl
        · exact absurd h hG1
      by_cases hG2 : F.onGet (getCollection .siteLayout ns) CONFIG_RKEY = true
      · refine ⟨[.get did (getCollection .siteConfig ns) CONFIG_RKEY true,
          .get did (getCollection .siteLayout ns) CONFIG_RKEY false], .error (), ?_, ?_⟩
        · simp [scanNamespaces, M.bind, opGet_faulty, hG1', hG2]
        · intro e he
          simp at he
          rcases he with h | h <;> (rw [h]; rfl)
      · have hG2' : F.onGet (getCollection .siteLayout ns) CONFIG_RKEY = false := by
          cases h : F.onGet (getCollection .siteLayout ns) CONFIG_RKEY
          · rfl
          · exact absurd h hG2
        by_cases hf : ((Store.getRec s did (getCollection .siteConfig ns) CONFIG_RKEY).isSome ||
            (Store.getRec s did (getCollection .siteLayout ns) CONFIG_RKEY).isSome) = true
        · refine ⟨[.get did (getCollection .siteConfig ns) CONFIG_RKEY true,
            .get did (getCollection .siteLayout ns) CONFIG_RKEY true],
            .ok (some (ns, Store.getRec s did (getCollection .siteConfig ns) CONFIG_RKEY,
              Store.getRec s did (getCollection .siteLayout ns) CONFIG_RKEY)), ?_, ?_⟩
          · simp [scanNamespaces, M.bind, opGet_faulty, hG1', hG2', hf, M.pure]
          · intro e he
            simp at he
            rcases he with h | h <;> (rw [h]; rfl)
        · have hf' : ((Store.getRec s did (getCollection .siteConfig ns) CONFIG_RKEY).isSome ||
              (Store.getRec s did (getCollection .siteLayout ns) CONFIG_RKEY).isSome) = false := by
            cases h : ((Store.getRec s did (getCollection .siteConfig ns) CONFIG_RKEY).isSome ||
                (Store.getRec s did (getCollection .siteLayout ns) CONFIG_RKEY).isSome)
            · rfl
            · exact absurd h hf
          rcases ih s (t ++ [.get did (getCollection .siteConfig ns) CONFIG_RKEY true,
            .get did (getCollection .siteLayout ns) CONFIG_RKEY true]) with ⟨Δ, r, heq, hdel⟩
          refine ⟨[.get did (getCollection .siteConfig ns) CONFIG_RKEY true,
            .get did (getCollection .siteLayout ns) CONFIG_RKEY true] ++ Δ, r, ?_, ?_⟩
          · simp only [scanNamespaces, M.bind, opGet_faulty, hG1', hG2', if_false,
              Bool.false_eq_true, hf']
            rw [← List.append_assoc]
            rw [← heq]
            simp
          · intro e he
            rcases List.mem_append.mp he with h | h
            · simp at h
              rcases h with h | h <;> (rw [h]; rfl)
            · exact hdel e h

theorem fetchSectionRecords_load (sid : String) (F : Faults) (uris : List AtUri) :
    ∀ (s : Store) (t : List Ev),
    ∃ Δ r, fetchSectionRecords (faultyBackend sid F) uris s t = (s, t ++ Δ, r) ∧
      ∀ e ∈ Δ, e.delTarget = none := by
  induction uris with
  | nil =>
    intro s t
    exact ⟨[], .ok [], by simp [fetchSectionRecords, M.pure], by simp⟩
  | cons u rest ih =>
    intro s t
    by_cases hG : F.onGet u.collection u.rkey = true
    · refine ⟨[.get u.did u.collection u.rkey false], .error (), ?_, ?_⟩
      · simp [fetchSectionRecords, M.bind, opGet_faulty, hG]
      · intro e he
        simp at he
        rw [he]
        rfl
    · have hG' : F.onGet u.collection u.rkey = false := by
        cases h : F.onGet u.collection u.rkey
        · rfl
        · exact absurd h hG
      rcases ih s (t ++ [.get u.did u.collection u.rkey true]) with ⟨Δ, r, heq, hdel⟩
      cases r with
      | error e =>
        refine ⟨[.get u.did u.collection u.rkey true] ++ Δ, .error e, ?_, ?_⟩
        · simp only [fetchSectionRecords, M.bind, opGet_faulty, hG', if_false,
            Bool.false_eq_true]
          rw [← List.append_assoc, heq]
        · intro e2 he2
          rcases List.mem_append.mp he2 with h | h
          · simp at h
            rw [h]
            rfl
          · exact hdel e2 h
      | ok rs =>
        refine ⟨[.get u.did u.collection u.rkey true] ++ Δ,
          .ok (Store.getRec s u.did u.collection u.rkey :: rs), ?_, ?_⟩
        · simp only [fetchSectionRecords, M.bind, opGet_faulty, hG', if_false,
            Bool.false_eq_true]
          rw [← List.append_assoc, heq]
          simp [M.pure]
        · intro e2 he2
          rcases List.mem_append.mp he2 with h | h
          · simp at h
            rw [h]
            rfl
          · exact hdel e2 h

theorem finishLoad_load (sid : String) (F : Faults) (cv : Value) (lr : Option Rec)
    (s : Store) (t : List Ev) :
    ∃ Δ r, finishLoad (faultyBackend sid F) cv lr s t = (s, t ++ Δ, r) ∧
      ∀ e ∈ Δ, e.delTarget = none := by
  cases hu : (lr.bind Rec.value).bind Value.sectionUris with
  | none =>
    exact ⟨[], .ok (some { title := cv.title, subtitle := cv.subtitle }),
      by simp [finishLoad, hu, M.pure], by simp⟩
  | some uris =>
    by_cases he : uris.isEmpty = true
    · exact ⟨[], .ok (some { title := cv.title, subtitle := cv.subtitle }),
        by simp [finishLoad, hu, he, M.pure], by simp⟩
    · have he' : uris.isEmpty = false := by
        cases h : uris.isEmpty
        · rfl
        · exact absurd h he
      rcases fetchSectionRecords_load sid F uris s t with ⟨Δ, r, heq, hdel⟩
      cases r with
      | error e =>
        refine ⟨Δ, .error e, ?_, hdel⟩
        simp only [finishLoad, hu, he', if_false, Bool.false_eq_true, M.bind]
        rw [heq]
      | ok rs =>
        refine ⟨Δ, .ok (some { title := cv.title, subtitle := cv.subtitle }), ?_, hdel⟩
        simp only [finishLoad, hu, he', if_false, Bool.false_eq_true, M.bind]
        rw [heq]
        simp [M.pure]

end Spores

namespace Spores


theorem M.bind_eq_ok {σ α β : Type} (x : M σ α) (f : α → M σ β) (s s₁ : σ)
    (t t₁ : List Ev) (a : α) (hx : x s t = (s₁, t₁, .ok a)) :
    M.bind x f s t = f a s₁ t₁ := by
  unfold M.bind
  rw [hx]

theorem M.bind_eq_error {σ α β : Type} (x : M σ α) (f : α → M σ β) (s s₁ : σ)
    (t t₁ : List Ev) (e : Unit) (hx : x s t = (s₁, t₁, .error e)) :
    M.bind x f s t = (s₁, t₁, .error e) := by
  unfold M.bind
  rw [hx]

theorem loadUserConfigBody_load (sid : String) (F : Faults) (env : Env) (did : String)
    (s : Store) (t : List Ev) :
    ∃ Δ s' r, loadUserConfigBody (faultyBackend sid F) env did s t = (s', t ++ Δ, r) ∧
      delsOnlyLegacy Δ ∧ presOld s s' := by
  rcases migrateSections_load sid F env did s t with ⟨Δ₁, s₁, r₁, heq₁, hdel₁, hpres₁⟩
  cases r₁ with
  | error u =>
    refine ⟨Δ₁, s₁, .error u, ?_, hdel₁, hpres₁⟩
    simp only [loadUserConfigBody]
    rw [M.bind_eq_error _ _ _ _ _ _ _ heq₁]
  | ok u =>
    rcases scanNamespaces_load sid F did (getReadNamespaces env) s₁ (t ++ Δ₁) with
      ⟨Δ₂, r₂, heq₂, hdel₂⟩
    cases r₂ with
    | error u2 =>
      refine ⟨Δ₁ ++ Δ₂, s₁, .error u2, ?_, delsOnlyLegacy_append hdel₁
        (delsOnlyLegacy_nondel Δ₂ hdel₂), hpres₁⟩
      simp only [loadUserConfigBody]
      rw [M.bind_eq_ok _ _ _ _ _ _ _ heq₁, M.bind_eq_error _ _ _ _ _ _ _ heq₂,
        List.append_assoc]
    | ok found =>
      have heq₂' : scanNamespaces (faultyBackend sid F) did (getReadNamespaces env) s₁
          (t ++ Δ₁) = (s₁, t ++ (Δ₁ ++ Δ₂), .ok found) := by
        rw [heq₂, List.append_assoc]
      cases found with
      | none =>
        refine ⟨Δ₁ ++ Δ₂, s₁, .ok none, ?_, delsOnlyLegacy_append hdel₁
          (delsOnlyLegacy_nondel Δ₂ hdel₂), hpres₁⟩
        simp only [loadUserConfigBody]
        rw [M.bind_eq_ok _ _ _ _ _ _ _ heq₁, M.bind_eq_ok _ _ _ _ _ _ _ heq₂']
        simp [resolveScanOutcome, M.pure]
      | some triple =>
        rcases triple with ⟨ns, cfg, layout⟩
        cases cfg with
        | some cr =>
          rcases finishLoad_load sid F (cr.value.getD {}) layout s₁ (t ++ (Δ₁ ++ Δ₂)) with
            ⟨Δ₃, r₃, heq₃, hdel₃⟩
          refine ⟨Δ₁ ++ Δ₂ ++ Δ₃, s₁, r₃, ?_,
            delsOnlyLegacy_append (delsOnlyLegacy_append hdel₁
              (delsOnlyLegacy_nondel Δ₂ hdel₂)) (delsOnlyLegacy_nondel Δ₃ hdel₃), hpres₁⟩
          simp only [loadUserConfigBody]
          rw [M.bind_eq_ok _ _ _ _ _ _ _ heq₁, M.bind_eq_ok _ _ _ _ _ _ _ heq₂']
          simp only [resolveScanOutcome]
          rw [heq₃]
          simp [List.append_assoc]
        | none =>
          cases layout with
          | none =>
            refine ⟨Δ₁ ++ Δ₂, s₁, .ok none, ?_, delsOnlyLegacy_append hdel₁
              (delsOnlyLegacy_nondel Δ₂ hdel₂), hpres₁⟩
            simp only [loadUserConfigBody]
            rw [M.bind_eq_ok _ _ _ _ _ _ _ heq₁, M.bind_eq_ok _ _ _ _ _ _ _ heq₂']
            simp [resolveScanOutcome, M.pure]
          | some lr =>
            by_cases hP : F.onPut (getCollection .siteConfig ns) CONFIG_RKEY = true
            · refine ⟨Δ₁ ++ Δ₂ ++ [.put (getCollection .siteConfig ns) CONFIG_RKEY
                { type := some (getCollection .siteConfig ns), title := some "My Garden",
                  subtitle := some "" } false], s₁, .error (), ?_, ?_, hpres₁⟩
              · simp only [loadUserConfigBody]
                rw [M.bind_eq_ok _ _ _ _ _ _ _ heq₁, M.bind_eq_ok _ _ _ _ _ _ _ heq₂']
                simp only [resolveScanOutcome]
                rw [M.bind_eq_error _ _ _ _ _ _ ()
                  (by rw [opPut_faulty, if_pos hP])]
                simp [List.append_assoc]
              · refine delsOnlyLegacy_append (delsOnlyLegacy_append hdel₁
                  (delsOnlyLegacy_nondel Δ₂ hdel₂)) ?_
                apply delsOnlyLegacy_nondel
                intro e he
                simp at he
                rw [he]
                rfl
            · rcases finishLoad_load sid F
                { type := some (getCollection .siteConfig ns), title := some "My Garden",
                  subtitle := some "" } (some lr)
                (s₁.insertRec sid (getCollection .siteConfig ns) CONFIG_RKEY
                  { type := some (getCollection .siteConfig ns), title := some "My Garden",
                    subtitle := some "" })
                (t ++ (Δ₁ ++ Δ₂) ++ [.put (getCollection .siteConfig ns) CONFIG_RKEY
                  { type := some (getCollection .siteConfig ns), title := some "My Garden",
                    subtitle := some "" } true]) with ⟨Δ₃, r₃, heq₃, hdel₃⟩
              refine ⟨Δ₁ ++ Δ₂ ++ [.put (getCollection .siteConfig ns) CONFIG_RKEY
                { type := some (getCollection .siteConfig ns), title := some "My Garden",
                  subtitle := some "" } true] ++ Δ₃,
                s₁.insertRec sid (getCollection .siteConfig ns) CONFIG_RKEY
                  { type := some (getCollection .siteConfig ns), title := some "My Garden",
                    subtitle := some "" }, r₃, ?_, ?_,
                presOld_trans hpres₁ (presOld_insertRec s₁ sid _ _ _)⟩
              · simp only [loadUserConfigBody]
                rw [M.bind_eq_ok _ _ _ _ _ _ _ heq₁, M.bind_eq_ok _ _ _ _ _ _ _ heq₂']
                simp only [resolveScanOutcome]
                rw [M.bind_eq_ok _ _ _ _ _ _ ()
                  (by rw [opPut_faulty, if_neg hP])]
                rw [heq₃]
                simp [List.append_assoc]
              · refine delsOnlyLegacy_append (delsOnlyLegacy_append (delsOnlyLegacy_append hdel₁
                  (delsOnlyLegacy_nondel Δ₂ hdel₂)) ?_) (delsOnlyLegacy_nondel Δ₃ hdel₃)
                apply delsOnlyLegacy_nondel
                intro e he
                simp at he
                rw [he]
                rfl

theorem loadUserConfig_load (sid : String) (F : Faults) (env : Env) (did : Option String)
    (s : Store) (t : List Ev) :
    ∃ Δ s' r, loadUserConfig (faultyBackend sid F) env did s t = (s', t ++ Δ, r) ∧
      delsOnlyLegacy Δ ∧ presOld s s' := by
  cases did with
  | none =>
    exact ⟨[], s, .ok none, by simp [loadUserConfig, M.pure], delsOnlyLegacy_nil,
      presOld_refl s⟩
  | some d =>
    rcases loadUserConfigBody_load sid F env d s t with ⟨Δ, s', r, heq, hdel, hpres⟩
    cases r with
    | error u =>
      refine ⟨Δ, s', .ok none, ?_, hdel, hpres⟩
      simp only [loadUserConfig]
      rw [heq]
    | ok a =>
      refine ⟨Δ, s', .ok a, ?_, hdel, hpres⟩
      simp only [loadUserConfig]
      rw [heq]

/-- C3.  The migration path invoked at site load never deletes
old-namespace records: for every session, fault pattern, environment,
tenant and store, every delete call issued during `migrateOwnerNsidRecords`
followed by `loadUserConfig` targets only the legacy pre-namespace
`garden.spores.site.sections` record (not an old-namespace collection),
and every old-namespace record present before the run is still present
after it. -/
theorem claim_C3 (sid : String) (F : Faults) (env : Env) (did : String) (s : Store) :
    (∀ e ∈ (siteLoad (faultyBackend sid F) env did s []).2.1, ∀ c,
      e.delTarget = some c → isOldCollection c = false) ∧
    (∀ d c k, isOldCollection c = true → (Store.getRec s d c k).isSome = true →
      (Store.getRec (siteLoad (faultyBackend sid F) env did s []).1 d c k).isSome = true) := by
  rcases migrateOwnerNsidRecords_faulty sid F env did s with ⟨Δ₁, s₁, heq₁, hdel₁, hpres₁, -⟩
  rcases loadUserConfig_load sid F env (some did) s₁ Δ₁ with ⟨Δ₂, s₂, r₂, heq₂, hdel₂, hpres₂⟩
  have hsite : siteLoad (faultyBackend sid F) env did s [] = (s₂, Δ₁ ++ Δ₂, r₂) := by
    simp only [siteLoad]
    rw [M.bind_eq_ok _ _ _ _ _ _ _ heq₁]
    exact heq₂
  rw [hsite]
  constructor
  · intro e he c hc
    rcases List.mem_append.mp he with h | h
    · rw [delTarget_none_of_not_isDel e (hdel₁ e h)] at hc
      exact absurd hc (by simp)
    · rw [hdel₂ e h c hc]
      decide
  · intro d c k hold hp
    apply hpres₂ d c k hold
    rw [hpres₁ d c k hold]
    exact hp

/-- Witness for C3 at a concrete input: a store holding one old-namespace
config and the legacy sections record, with an authorized, enabled run. -/
theorem claim_C3_witness :
    (∀ e ∈ (siteLoad (faultyBackend "did:plc:w" noFaults)
        { flagRaw := "true", loggedIn := true, currentDid := some "did:plc:w" } "did:plc:w"
        [⟨"did:plc:w", "garden.spores.site.config", "self", { title := some "t" }⟩,
         ⟨"did:plc:w", "garden.spores.site.sections", "self",
           { legacySections := some [{ title := some "s1" }] }⟩] []).2.1, ∀ c,
      e.delTarget = some c → isOldCollection c = false) ∧
    (∀ d c k, isOldCollection c = true →
      (Store.getRec [⟨"did:plc:w", "garden.spores.site.config", "self", { title := some "t" }⟩,
         ⟨"did:plc:w", "garden.spores.site.sections", "self",
           { legacySections := some [{ title := some "s1" }] }⟩] d c k).isSome = true →
      (Store.getRec (siteLoad (faultyBackend "did:plc:w" noFaults)
        { flagRaw := "true", loggedIn := true, currentDid := some "did:plc:w" } "did:plc:w"
        [⟨"did:plc:w", "garden.spores.site.config", "self", { title := some "t" }⟩,
         ⟨"did:plc:w", "garden.spores.site.sections", "self",
           { legacySections := some [{ title := some "s1" }] }⟩] []).1 d c k).isSome
        = true) :=
  claim_C3 "did:plc:w" noFaults
    { flagRaw := "true", loggedIn := true, currentDid := some "did:plc:w" } "did:plc:w"
    [⟨"did:plc:w", "garden.spores.site.config", "self", { title := some "t" }⟩,
     ⟨"did:plc:w", "garden.spores.site.sections", "self",
       { legacySections := some [{ title := some "s1" }] }⟩]

end Spores


namespace Spores

/-- A stateless paginated store: each list call is answered purely from
the cursor (get/put/delete/create are inert), used to exercise the
listers against arbitrary cursor behaviour. -/
def pagerBackend (f : Option String → ListResp) : Backend Unit where
  get s _ _ _ := (s, .ok none)
  put s _ _ _ := (s, .ok ())
  list s _ _ cur := (s, .ok (f cur))
  del s _ _ := (s, .ok ())
  create s c _ := (s, .ok ⟨"", c, ""⟩)

/-- The single record used by the repeating-cursor scenarios. -/
def oneRec : Rec := { uri := ⟨"d", "c", "k"⟩, value := none }

/-- A store that answers every list call with one record and the same
cursor "c", forever. -/
def loopResp : Option String → ListResp :=
  fun _ => { records := [oneRec], cursor := some "c" }

theorem opList_pager (f : Option String → ListResp) (d c : String) (cur : Option String)
    (s : Unit) (t : List Ev) :
    opList (pagerBackend f) d c cur s t = (s, t ++ [.list d c cur true], .ok (f cur)) := by
  simp [opList, pagerBackend]

theorem listAllImplGo_pager_two (f : Option String → ListResp) (d c c0 : String)
    (hf : ∀ cur, (f cur).cursor = some c0) (hc0 : (c0 == "") = false) (fuel : Nat)
    (t : List Ev) :
    listAllImplGo (pagerBackend f) d c (fuel + 2) none [] [] () t =
      ((), t ++ [.list d c none true, .list d c (some c0) true],
        .ok ((f none).records ++ (f (some c0)).records)) := by
  have hne : c0 ≠ "" := by
    intro h
    rw [h] at hc0
    simp at hc0
  rcases hfn : f none with ⟨recs1, cur1⟩
  have h1 : cur1 = some c0 := by
    have := hf none
    rw [hfn] at this
    exact this
  subst h1
  rcases hfs : f (some c0) with ⟨recs2, cur2⟩
  have h2' : cur2 = some c0 := by
    have := hf (some c0)
    rw [hfs] at this
    exact this
  subst h2'
  have h2 : fuel + 2 = Nat.succ (Nat.succ fuel) := rfl
  rw [h2]
  simp [listAllImplGo, M.bind, opList_pager, hfn, hfs, M.pure, hne, hc0, List.append_assoc]

end Spores

namespace Spores

/-- C7 (amended).  Pagination safety of the nsid-migration.ts lister: for
every stateless store whose list endpoint always returns the same
non-empty cursor, `listAllRecordsForCollection` of
src/config/nsid-migration.ts terminates after exactly two list calls —
well within the MAX_LIST_PAGES bound — stopping on the repeated cursor and
returning the records accumulated up to that point without raising.  (The
lister local to src/config.ts has no repeated-cursor detection and stops
only at its 50-page ceiling: see the counterexample.) -/
theorem claim_C7 (f : Option String → ListResp) (d c c0 : String)
    (hf : ∀ cur, (f cur).cursor = some c0) (hc0 : (c0 == "") = false) :
    listAllRecordsForCollectionImpl (pagerBackend f) d c () [] =
      ((), [.list d c none true, .list d c (some c0) true],
        .ok ((f none).records ++ (f (some c0)).records)) ∧
    ([.list d c none true, .list d c (some c0) true] : List Ev).length ≤ MAX_LIST_PAGES := by
  constructor
  · have h200 : MAX_LIST_PAGES = 198 + 2 := rfl
    unfold listAllRecordsForCollectionImpl
    rw [h200, listAllImplGo_pager_two f d c c0 hf hc0 198 []]
    simp
  · show 2 ≤ MAX_LIST_PAGES
    decide

/-- Witness for C7 at a concrete input: a store that replies with one
record and cursor "c" forever; the nsid-migration lister stops after the
second call. -/
theorem claim_C7_witness :
    (∀ cur, (loopResp cur).cursor = some "c") ∧
    (listAllRecordsForCollectionImpl (pagerBackend loopResp) "d" "c" () [] =
      ((), [.list "d" "c" none true, .list "d" "c" (some "c") true],
        .ok ((loopResp none).records ++ (loopResp (some "c")).records)) ∧
     ([.list "d" "c" none true, .list "d" "c" (some "c") true] : List Ev).length
        ≤ MAX_LIST_PAGES) :=
  ⟨fun _ => rfl, claim_C7 loopResp "d" "c" "c" (fun _ => rfl) (by decide)⟩

/-- Counterexample to C7 as stated for the lister local to src/config.ts
(the one `migrateOwnerNsidRecords` calls): against the same
forever-repeating cursor, it does not stop early on the repeated cursor —
it issues all 50 list calls of its page ceiling and accumulates 50
duplicate pages. -/
theorem claim_C7_counterexample :
    (listAllRecordsForCollection (pagerBackend loopResp) "d" "c" () []).2.1.length = 50 ∧
    (listAllRecordsForCollection (pagerBackend loopResp) "d" "c" () []).2.2 =
      .ok (List.replicate 50 oneRec) := by
  constructor <;> decide

end Spores

namespace Spores

theorem keyOfOldCollection_roundtrip :
    ∀ k : CollectionKey, keyOfOldCollection (getCollection k .old) = some k := by
  intro k
  cases k <;> rfl

/-- C8.  Reference rewrite preserves tenant and record key: for every
source collection identifier, record value, and cross-reference URI whose
collection segment is a known old-namespace identifier, the payload
rewriter toward the new namespace maps at://tenant/OLD_ID/key to
at://tenant/NEW_ID/key — the tenant and record-key segments are unchanged
and only the collection-identifier segment is replaced via the registry. -/
theorem claim_C8 (cid : String) (v : Value) (u : AtUri) (k : CollectionKey)
    (href : v.ref = some u) (hcoll : u.collection = getCollection k .old) :
    (rewriteRecordPayloadForNamespace cid v .new).ref =
      some ⟨u.did, getCollection k .new, u.rkey⟩ := by
  unfold rewriteRecordPayloadForNamespace rewriteRefUri
  simp [href, hcoll, keyOfOldCollection_roundtrip k]

/-- Witness for C8 at the concrete input of the repository's own
migration test: a section record whose ref points at the old contentText
collection. -/
theorem claim_C8_witness :
    (({ type := some "garden.spores.site.section",
        ref := some ⟨"did:plc:testowner", "garden.spores.content.text", "welcome"⟩ } : Value).ref
      = some ⟨"did:plc:testowner", "garden.spores.content.text", "welcome"⟩) ∧
    (AtUri.collection ⟨"did:plc:testowner", "garden.spores.content.text", "welcome"⟩ =
      getCollection .contentText .old) ∧
    ((rewriteRecordPayloadForNamespace "garden.spores.site.section"
        { type := some "garden.spores.site.section",
          ref := some ⟨"did:plc:testowner", "garden.spores.content.text", "welcome"⟩ }
        .new).ref =
      some ⟨"did:plc:testowner", getCollection .contentText .new, "welcome"⟩) :=
  ⟨rfl, rfl,
   claim_C8 "garden.spores.site.section"
     { type := some "garden.spores.site.section",
       ref := some ⟨"did:plc:testowner", "garden.spores.content.text", "welcome"⟩ }
     ⟨"did:plc:testowner", "garden.spores.content.text", "welcome"⟩ .contentText rfl rfl⟩

end Spores

namespace Spores

/-- The pure outcome of the namespace scan against the fault-free store:
the first read namespace whose singleton config or layout record exists,
with those records. -/
def scanResultPure (s : Store) (did : String) : List Ns → Option (Ns × Option Rec × Option Rec)
  | [] => none
  | ns :: rest =>
    let c := s.getRec did (getCollection .siteConfig ns) CONFIG_RKEY
    let l := s.getRec did (getCollection .siteLayout ns) CONFIG_RKEY
    if c.isSome || l.isSome then some (ns, c, l) else scanResultPure s did rest

theorem scanNamespaces_honest (sid did : String) (nss : List Ns) :
    ∀ (s : Store) (t : List Ev),
    ∃ Δ, scanNamespaces (honestBackend sid) did nss s t =
        (s, t ++ Δ, .ok (scanResultPure s did nss)) ∧
      ∀ e ∈ Δ, e.isWrite = false := by
  induction nss with
  | nil =>
    intro s t
    exact ⟨[], by simp [scanNamespaces, scanResultPure, M.pure], by simp⟩
  | cons ns rest ih =>
    intro s t
    by_cases hf : ((Store.getRec s did (getCollection .siteConfig ns) CONFIG_RKEY).isSome ||
        (Store.getRec s did (getCollection .siteLayout ns) CONFIG_RKEY).isSome) = true
    · refine ⟨[.get did (getCollection .siteConfig ns) CONFIG_RKEY true,
        .get did (getCollection .siteLayout ns) CONFIG_RKEY true], ?_, ?_⟩
      · simp [scanNamespaces, scanResultPure, M.bind, honestBackend, opGet_faulty, noFaults,
          hf, M.pure]
      · intro e he
        simp at he
        rcases he with h | h <;> (rw [h]; rfl)
    · have hf' : ((Store.getRec s did (getCollection .siteConfig ns) CONFIG_RKEY).isSome ||
          (Store.getRec s did (getCollection .siteLayout ns) CONFIG_RKEY).isSome) = false := by
        cases h : ((Store.getRec s did (getCollection .siteConfig ns) CONFIG_RKEY).isSome ||
            (Store.getRec s did (getCollection .siteLayout ns) CONFIG_RKEY).isSome)
        · rfl
        · exact absurd h hf
      rcases ih s (t ++ [.get did (getCollection .siteConfig ns) CONFIG_RKEY true,
        .get did (getCollection .siteLayout ns) CONFIG_RKEY true]) with ⟨Δ, heq, hwr⟩
      refine ⟨[.get did (getCollection .siteConfig ns) CONFIG_RKEY true,
        .get did (getCollection .siteLayout ns) CONFIG_RKEY true] ++ Δ, ?_, ?_⟩
      · simp only [scanNamespaces, M.bind, honestBackend, opGet_faulty]
        have hg : ∀ c k, noFaults.onGet c k = false := fun _ _ => rfl
        rw [hg, hg]
        simp only [if_false, Bool.false_eq_true, hf']
        simp only [honestBackend] at heq
        simp only [List.append_assoc, List.cons_append, List.nil_append,
          List.singleton_append] at heq ⊢
        rw [heq]
        simp [scanResultPure, hf']
      · intro e he
        rcases List.mem_append.mp he with h | h
        · simp at h
          rcases h with h | h <;> (rw [h]; rfl)
        · exact hwr e h

theorem fetchSectionRecords_honest (sid : String) (uris : List AtUri) :
    ∀ (s : Store) (t : List Ev),
    ∃ Δ r, fetchSectionRecords (honestBackend sid) uris s t = (s, t ++ Δ, .ok r) ∧
      ∀ e ∈ Δ, e.isWrite = false := by
  induction uris with
  | nil =>
    intro s t
    exact ⟨[], [], by simp [fetchSectionRecords, M.pure], by simp⟩
  | cons u rest ih =>
    intro s t
    rcases ih s (t ++ [.get u.did u.collection u.rkey true]) with ⟨Δ, r, heq, hwr⟩
    refine ⟨[.get u.did u.collection u.rkey true] ++ Δ,
      Store.getRec s u.did u.collection u.rkey :: r, ?_, ?_⟩
    · simp only [fetchSectionRecords, M.bind, honestBackend, opGet_faulty]
      have hg : ∀ c k, noFaults.onGet c k = false := fun _ _ => rfl
      rw [hg]
      simp only [if_false, Bool.false_eq_true]
      rw [← List.append_assoc]
      simp only [honestBackend] at heq
      rw [heq]
      simp [M.pure]
    · intro e he
      rcases List.mem_append.mp he with h | h
      · simp at h
        rw [h]
        rfl
      · exact hwr e h

theorem finishLoad_honest (sid : String) (cv : Value) (lr : Option Rec) (s : Store)
    (t : List Ev) :
    ∃ Δ r, finishLoad (honestBackend sid) cv lr s t = (s, t ++ Δ, .ok r) ∧
      ∀ e ∈ Δ, e.isWrite = false := by
  cases hu : (lr.bind Rec.value).bind Value.sectionUris with
  | none =>
    exact ⟨[], some { title := cv.title, subtitle := cv.subtitle },
      by simp [finishLoad, hu, M.pure], by simp⟩
  | some uris =>
    by_cases he : uris.isEmpty = true
    · exact ⟨[], some { title := cv.title, subtitle := cv.subtitle },
        by simp [finishLoad, hu, he, M.pure], by simp⟩
    · have he' : uris.isEmpty = false := by
        cases h : uris.isEmpty
        · rfl
        · exact absurd h he
      rcases fetchSectionRecords_honest sid uris s t with ⟨Δ, r, heq, hwr⟩
      refine ⟨Δ, some { title := cv.title, subtitle := cv.subtitle }, ?_, hwr⟩
      simp only [finishLoad, hu, he', if_false, Bool.false_eq_true]
      rw [M.bind_eq_ok _ _ _ _ _ _ _ heq]
      simp [M.pure]

theorem migrateSections_skip {σ : Type} (B : Backend σ) (env : Env) (did : String) (s : σ)
    (t : List Ev) (h : (env.loggedIn && env.currentDid == some did) = false) :
    migrateSections B env did s t = (s, t, .ok ()) := by
  simp [migrateSections, h, M.pure]

/-- C9 (amended).  The dual-namespace load resolver issues no writes when
the caller is not authenticated as the tenant, provided the namespace scan
does not land on a layout record without a config record (in that case the
source writes a default config record — see the counterexample): under
these hypotheses every store call in a `loadUserConfig` run is a read. -/
theorem claim_C9 (sid : String) (env : Env) (did : String) (s : Store)
    (hauth : env.loggedIn = false ∨ env.currentDid ≠ some did)
    (hscan : ∀ ns cfg layout,
      scanResultPure s did (getReadNamespaces env) = some (ns, cfg, layout) →
      cfg.isSome = true) :
    ∀ e ∈ (loadUserConfig (honestBackend sid) env (some did) s []).2.1, e.isWrite = false := by
  have hb : (env.loggedIn && env.currentDid == some did) = false := by
    rcases hauth with h | h
    · simp [h]
    · have : (env.currentDid == some did) = false := by
        cases h2 : env.currentDid == some did
        · rfl
        · exact absurd (eq_of_beq h2) h
      simp [this]
  rcases scanNamespaces_honest sid did (getReadNamespaces env) s [] with ⟨Δ₂, heq₂, hwr₂⟩
  have hbody : ∀ Δ₃ r₃,
      (∀ e ∈ Δ₃, e.isWrite = false) →
      resolveScanOutcome (honestBackend sid) (scanResultPure s did (getReadNamespaces env)) s
        ([] ++ Δ₂) = (s, [] ++ Δ₂ ++ Δ₃, r₃) →
      ∀ e ∈ (loadUserConfig (honestBackend sid) env (some did) s []).2.1,
        e.isWrite = false := by
    intro Δ₃ r₃ hwr₃ hres e he
    have hload : loadUserConfigBody (honestBackend sid) env did s [] = (s, [] ++ Δ₂ ++ Δ₃, r₃) := by
      simp only [loadUserConfigBody]
      rw [M.bind_eq_ok _ _ _ _ _ _ _ (migrateSections_skip _ env did s [] hb)]
      rw [M.bind_eq_ok _ _ _ _ _ _ _ heq₂]
      exact hres
    have : (loadUserConfig (honestBackend sid) env (some did) s []).2.1 = [] ++ Δ₂ ++ Δ₃ := by
      simp only [loadUserConfig]
      rw [hload]
      cases r₃ <;> rfl
    rw [this] at he
    rcases List.mem_append.mp he with h | h
    · rcases List.mem_append.mp h with h2 | h2
      · exact absurd h2 (by simp)
      · exact hwr₂ e h2
    · exact hwr₃ e h
  cases hsc : scanResultPure s did (getReadNamespaces env) with
  | none =>
    exact hbody [] (.ok none) (by simp)
      (by rw [hsc]; simp [resolveScanOutcome, M.pure])
  | some triple =>
    rcases triple with ⟨ns, cfg, layout⟩
    cases cfg with
    | none => exact absurd (hscan ns none layout hsc) (by simp)
    | some cr =>
      rcases finishLoad_honest sid (cr.value.getD {}) layout s ([] ++ Δ₂) with
        ⟨Δ₃, r₃, heq₃, hwr₃⟩
      exact hbody Δ₃ (.ok r₃) hwr₃
        (by rw [hsc]; simp only [resolveScanOutcome]; exact heq₃)

/-- Witness for C9 at a concrete input: a visitor loading a tenant whose
repo holds a config record in the new namespace — zero writes. -/
theorem claim_C9_witness :
    (({ flagRaw := "true", loggedIn := true, currentDid := some "did:plc:visitor" } : Env).loggedIn
        = false ∨
     ({ flagRaw := "true", loggedIn := true, currentDid := some "did:plc:visitor" } : Env).currentDid
        ≠ some "did:plc:owner") ∧
    (∀ e ∈ (loadUserConfig (honestBackend "did:plc:visitor")
        { flagRaw := "true", loggedIn := true, currentDid := some "did:plc:visitor" }
        (some "did:plc:owner")
        [⟨"did:plc:owner", "coop.hypha.spores.site.config", "self", { title := some "t" }⟩]
        []).2.1, e.isWrite = false) :=
  ⟨Or.inr (by decide),
   claim_C9 "did:plc:visitor"
     { flagRaw := "true", loggedIn := true, currentDid := some "did:plc:visitor" }
     "did:plc:owner"
     [⟨"did:plc:owner", "coop.hypha.spores.site.config", "self", { title := some "t" }⟩]
     (Or.inr (by decide))
     (by intro ns cfg layout h
         cases h
         rfl)⟩

/-- Counterexample to C9 as stated: a tenant whose repo holds a layout
record but no config record.  A visitor's `loadUserConfig` run issues a
putRecord call — it writes a default config record into the active
(new-namespace) config collection even though the caller is not
authenticated as that tenant. -/
theorem claim_C9_counterexample :
    ((loadUserConfig (honestBackend "did:plc:visitor")
        { flagRaw := "true", loggedIn := true, currentDid := some "did:plc:visitor" }
        (some "did:plc:owner")
        [⟨"did:plc:owner", "coop.hypha.spores.site.layout", "self", {}⟩] []).2.1.any
      (fun e => e.isWrite)) = true ∧
    ((loadUserConfig (honestBackend "did:plc:visitor")
        { flagRaw := "true", loggedIn := true, currentDid := some "did:plc:visitor" }
        (some "did:plc:owner")
        [⟨"did:plc:owner", "coop.hypha.spores.site.layout", "self", {}⟩] []).2.1.any
      (fun e => match e with
        | .put c _ _ _ => isNewCollection c
        | _ => false)) = true := by
  constructor <;> decide

end Spores

namespace Spores

/-- C6 (divergence of the code from its own test and from the spec's
Scenario B).  On a tenant with no records at all, an authorized,
flag-enabled run of `migrateOwnerNsidRecords` performs one store write —
the finalize step (config.ts:266-277) unconditionally writes the default
marker config record — and the dual-namespace load resolver afterwards
returns that config rather than the NONE outcome; the repository's own
test (NSID owner migration, "does not create records when there is
nothing to migrate") asserts that putRecord is never called on this
input. -/
theorem claim_C6 :
    ((migrateOwnerNsidRecords (honestBackend "did:plc:w")
        { flagRaw := "true", loggedIn := true, currentDid := some "did:plc:w" }
        "did:plc:w" [] []).2.1.filter Ev.isWrite).length = 1 ∧
    markerValue (migrateOwnerNsidRecords (honestBackend "did:plc:w")
        { flagRaw := "true", loggedIn := true, currentDid := some "did:plc:w" }
        "did:plc:w" [] []).1 "did:plc:w" = some NSID_MIGRATION_VERSION ∧
    (loadUserConfig (honestBackend "did:plc:w")
        { flagRaw := "true", loggedIn := true, currentDid := some "did:plc:w" }
        (some "did:plc:w")
        (migrateOwnerNsidRecords (honestBackend "did:plc:w")
          { flagRaw := "true", loggedIn := true, currentDid := some "did:plc:w" }
          "did:plc:w" [] []).1 []).2.2 =
      .ok (some { title := some "My Garden", subtitle := some "" }) := by
  refine ⟨?_, ?_, ?_⟩ <;> decide

end Spores
